import Mathlib

/-!
Verification of the gossip-protocol node (`gossip/message.py`, `gossip/pow.py`,
`gossip/node.py`) against its natural-language specification.

The Python code is shallowly embedded:
* JSON values are the inductive type `Json`; Python `dict`s decoded from JSON
  are insertion-ordered association lists with unique keys.
* A received datagram is a `Frame`: either bytes that parse to a JSON value,
  or a frame that is not UTF-8/JSON at all (`Frame.garbage`).  `json.dumps`
  followed by `json.loads` is the identity on JSON trees, so `to_bytes`
  produces `Frame.value` of the envelope's dictionary form.
* `Message` mirrors the dataclass in `gossip/message.py`; fields that Python
  leaves dynamically typed are `Json`-typed here (`from_bytes` copies raw
  JSON values into them), `msg_type` is a `String` because every construction
  site stores a string there.
* Wall-clock reads (`time.time()`), `uuid4().hex` draws and the seeded PRNG
  are external inputs; they are passed to the embedded operations as explicit
  parameters (`now`, `fresh`, `sample`).
* Python mutation is explicit state passing on `NodeState`.
-/

namespace Gossip

/-- A JSON value (what `json.loads` can produce; numbers restricted to the
integers actually used by the protocol). -/
inductive Json where
  | null : Json
  | bool (b : Bool) : Json
  | num (n : Int) : Json
  | str (s : String) : Json
  | arr (elems : List Json) : Json
  | obj (fields : List (String × Json)) : Json

mutual

/-- Structural decidable equality for `Json` (the `deriving` handler does not
support this nested inductive). -/
def Json.decEq : (a b : Json) → Decidable (a = b)
  | .null, .null => .isTrue rfl
  | .bool x, .bool y =>
    if h : x = y then .isTrue (h ▸ rfl)
    else .isFalse (fun hh => h (Json.bool.inj hh))
  | .num x, .num y =>
    if h : x = y then .isTrue (h ▸ rfl)
    else .isFalse (fun hh => h (Json.num.inj hh))
  | .str x, .str y =>
    if h : x = y then .isTrue (h ▸ rfl)
    else .isFalse (fun hh => h (Json.str.inj hh))
  | .arr xs, .arr ys =>
    match Json.decEqList xs ys with
    | .isTrue h => .isTrue (h ▸ rfl)
    | .isFalse h => .isFalse (fun hh => h (Json.arr.inj hh))
  | .obj xs, .obj ys =>
    match Json.decEqKV xs ys with
    | .isTrue h => .isTrue (h ▸ rfl)
    | .isFalse h => .isFalse (fun hh => h (Json.obj.inj hh))
  | .null, .bool _ => .isFalse (fun h => nomatch h)
  | .null, .num _ => .isFalse (fun h => nomatch h)
  | .null, .str _ => .isFalse (fun h => nomatch h)
  | .null, .arr _ => .isFalse (fun h => nomatch h)
  | .null, .obj _ => .isFalse (fun h => nomatch h)
  | .bool _, .null => .isFalse (fun h => nomatch h)
  | .bool _, .num _ => .isFalse (fun h => nomatch h)
  | .bool _, .str _ => .isFalse (fun h => nomatch h)
  | .bool _, .arr _ => .isFalse (fun h => nomatch h)
  | .bool _, .obj _ => .isFalse (fun h => nomatch h)
  | .num _, .null => .isFalse (fun h => nomatch h)
  | .num _, .bool _ => .isFalse (fun h => nomatch h)
  | .num _, .str _ => .isFalse (fun h => nomatch h)
  | .num _, .arr _ => .isFalse (fun h => nomatch h)
  | .num _, .obj _ => .isFalse (fun h => nomatch h)
  | .str _, .null => .isFalse (fun h => nomatch h)
  | .str _, .bool _ => .isFalse (fun h => nomatch h)
  | .str _, .num _ => .isFalse (fun h => nomatch h)
  | .str _, .arr _ => .isFalse (fun h => nomatch h)
  | .str _, .obj _ => .isFalse (fun h => nomatch h)
  | .arr _, .null => .isFalse (fun h => nomatch h)
  | .arr _, .bool _ => .isFalse (fun h => nomatch h)
  | .arr _, .num _ => .isFalse (fun h => nomatch h)
  | .arr _, .str _ => .isFalse (fun h => nomatch h)
  | .arr _, .obj _ => .isFalse (fun h => nomatch h)
  | .obj _, .null => .isFalse (fun h => nomatch h)
  | .obj _, .bool _ => .isFalse (fun h => nomatch h)
  | .obj _, .num _ => .isFalse (fun h => nomatch h)
  | .obj _, .str _ => .isFalse (fun h => nomatch h)
  | .obj _, .arr _ => .isFalse (fun h => nomatch h)

/-- Decidable equality for JSON arrays. -/
def Json.decEqList : (xs ys : List Json) → Decidable (xs = ys)
  | [], [] => .isTrue rfl
  | [], _ :: _ => .isFalse (fun h => nomatch h)
  | _ :: _, [] => .isFalse (fun h => nomatch h)
  | x :: xs, y :: ys =>
    match Json.decEq x y with
    | .isTrue h1 =>
      match Json.decEqList xs ys with
      | .isTrue h2 => .isTrue (h1 ▸ h2 ▸ rfl)
      | .isFalse h2 => .isFalse (fun hh => h2 (List.cons.inj hh).2)
    | .isFalse h1 => .isFalse (fun hh => h1 (List.cons.inj hh).1)

/-- Decidable equality for JSON mappings (key/value lists). -/
def Json.decEqKV : (xs ys : List (String × Json)) → Decidable (xs = ys)
  | [], [] => .isTrue rfl
  | [], _ :: _ => .isFalse (fun h => nomatch h)
  | _ :: _, [] => .isFalse (fun h => nomatch h)
  | (k1, v1) :: xs, (k2, v2) :: ys =>
    if hk : k1 = k2 then
      match Json.decEq v1 v2 with
      | .isTrue hv =>
        match Json.decEqKV xs ys with
        | .isTrue ht => .isTrue (hk ▸ hv ▸ ht ▸ rfl)
        | .isFalse ht => .isFalse (fun hh => ht (List.cons.inj hh).2)
      | .isFalse hv =>
        .isFalse (fun hh => hv (congrArg Prod.snd (List.cons.inj hh).1))
    else
      .isFalse (fun hh => hk (congrArg Prod.fst (List.cons.inj hh).1))

end

instance : DecidableEq Json := Json.decEq

namespace Json

/-- Python `d.get(key, default)` on a decoded JSON mapping: first matching
key (keys are unique in mappings produced by `json.loads`). -/
def getD (kvs : List (String × Json)) (k : String) (d : Json) : Json :=
  match kvs.find? (fun p => p.1 == k) with
  | some p => p.2
  | none => d

/-- Python truthiness of a JSON value (`if x:`). -/
def truthy : Json → Bool
  | .null => false
  | .bool b => b
  | .num n => n != 0
  | .str s => !s.isEmpty
  | .arr l => !l.isEmpty
  | .obj l => !l.isEmpty

/-- `payload.get(key, default)` where the payload is an arbitrary JSON value.
In the source the payload is always a mapping at every call site that
reaches a `.get`; on a non-mapping Python would raise `AttributeError`,
which aborts the handler exactly like an early drop.  The model returns the
default there; every theorem below instantiates mappings. -/
def pget (j : Json) (k : String) (d : Json) : Json :=
  match j with
  | .obj kvs => getD kvs k d
  | _ => d

/-- Membership of a key in a JSON mapping. -/
def hasKey (kvs : List (String × Json)) (k : String) : Bool :=
  (kvs.find? (fun p => p.1 == k)).isSome

end Json

/-- `MSG_TYPES` — the eight recognised message types (`gossip/message.py`). -/
def MSG_TYPES : List String :=
  ["HELLO", "GET_PEERS", "PEERS_LIST", "GOSSIP", "PING", "PONG", "IHAVE", "IWANT"]

/-- The `Message` dataclass of `gossip/message.py`.  `msg_type` is a string at
every construction site; the remaining fields hold whatever JSON value
`from_bytes` copied into them (Python does not enforce the annotations). -/
structure Message where
  msg_type : String
  sender_id : Json
  sender_addr : Json
  payload : Json
  ttl : Json
  version : Json
  msg_id : Json
  timestamp_ms : Json
deriving DecidableEq

/-- A received datagram after the `data.decode("utf-8")` / `json.loads` front
end: either a JSON value, or a frame that is not UTF-8 text or not JSON
(`Frame.garbage` — both raise, and `from_bytes` catches the exception). -/
inductive Frame where
  | garbage : Frame
  | value (j : Json) : Frame
deriving DecidableEq

namespace Message

/-- `Message.to_dict` (`gossip/message.py`): the envelope's dictionary form,
keys in the literal order of the source. -/
def to_dict (m : Message) : Json :=
  .obj [("version", m.version),
        ("msg_id", m.msg_id),
        ("msg_type", .str m.msg_type),
        ("sender_id", m.sender_id),
        ("sender_addr", m.sender_addr),
        ("timestamp_ms", m.timestamp_ms),
        ("ttl", m.ttl),
        ("payload", m.payload)]

/-- `Message.to_bytes`: `json.dumps(self.to_dict()).encode("utf-8")`.
Serialising a JSON tree and parsing it back is the identity, so the frame
carries the dictionary form itself. -/
def to_bytes (m : Message) : Frame :=
  .value (to_dict m)

/-- `Message.from_bytes`: deserialise a datagram, `none` on any error.
`fresh` is the `uuid.uuid4().hex` value drawn when `msg_id` is missing. -/
def from_bytes (fresh : String) : Frame → Option Message
  | .garbage => none
  | .value d =>
    match d with
    | .obj kvs =>
      -- msg_type = d.get("msg_type", ""); if msg_type not in MSG_TYPES: return None
      match Json.getD kvs "msg_type" (.str "") with
      | .str s =>
        if MSG_TYPES.contains s then
          some { version := Json.getD kvs "version" (.num 1)
                 msg_id := Json.getD kvs "msg_id" (.str fresh)
                 msg_type := s
                 sender_id := Json.getD kvs "sender_id" (.str "")
                 sender_addr := Json.getD kvs "sender_addr" (.str "")
                 timestamp_ms := Json.getD kvs "timestamp_ms" (.num 0)
                 ttl := Json.getD kvs "ttl" (.num 0)
                 payload := Json.getD kvs "payload" (.obj []) }
        else none
      | .null | .bool _ | .num _ | .arr _ | .obj _ =>
        -- a non-string msg_type is never in MSG_TYPES (unhashable values
        -- raise, which the bare `except` turns into None as well)
        none
    | _ => none

end Message

/-!  ## SHA-256 (`hashlib.sha256(...).hexdigest()`)

The standard algorithm, on 32-bit words represented as `Nat` reduced mod
`2 ^ 32`; input is the UTF-8 byte sequence of the hashed string, output the
lowercase hex digest. -/

namespace SHA256

/-- Truncate to a 32-bit word. -/
def w32 (n : Nat) : Nat := n % 4294967296

/-- Right rotation of a 32-bit word. -/
def rotr (x n : Nat) : Nat := w32 ((x >>> n) ||| (x <<< (32 - n)))

def bigSigma0 (x : Nat) : Nat := (rotr x 2) ^^^ (rotr x 13) ^^^ (rotr x 22)

def bigSigma1 (x : Nat) : Nat := (rotr x 6) ^^^ (rotr x 11) ^^^ (rotr x 25)

def smallSigma0 (x : Nat) : Nat := (rotr x 7) ^^^ (rotr x 18) ^^^ (x >>> 3)

def smallSigma1 (x : Nat) : Nat := (rotr x 17) ^^^ (rotr x 19) ^^^ (x >>> 10)

def ch (x y z : Nat) : Nat := (x &&& y) ^^^ ((x ^^^ 4294967295) &&& z)

def maj (x y z : Nat) : Nat := (x &&& y) ^^^ (x &&& z) ^^^ (y &&& z)

/-- The 64 round constants (decimal values of the FIPS 180-4 table). -/
def K : List Nat :=
  [1116352408, 1899447441, 3049323471, 3921009573,
   961987163, 1508970993, 2453635748, 2870763221,
   3624381080, 310598401, 607225278, 1426881987,
   1925078388, 2162078206, 2614888103, 3248222580,
   3835390401, 4022224774, 264347078, 604807628,
   770255983, 1249150122, 1555081692, 1996064986,
   2554220882, 2821834349, 2952996808, 3210313671,
   3336571891, 3584528711, 113926993, 338241895,
   666307205, 773529912, 1294757372, 1396182291,
   1695183700, 1986661051, 2177026350, 2456956037,
   2730485921, 2820302411, 3259730800, 3345764771,
   3516065817, 3600352804, 4094571909, 275423344,
   430227734, 506948616, 659060556, 883997877,
   958139571, 1322822218, 1537002063, 1747873779,
   1955562222, 2024104815, 2227730452, 2361852424,
   2428436474, 2756734187, 3204031479, 3329325298]

/-- Big-endian byte rendering of a value, fixed width. -/
def beBytes : Nat → Nat → List Nat
  | 0, _ => []
  | w + 1, v => beBytes w (v >>> 8) ++ [v &&& 255]

/-- SHA-256 padding of a byte sequence. -/
def pad (msg : List Nat) : List Nat :=
  let len := msg.length
  let zeros := (64 - ((len + 9) % 64)) % 64
  msg ++ [128] ++ List.replicate zeros 0 ++ beBytes 8 (len * 8)

/-- Pack bytes into big-endian 32-bit words. -/
def toWords : List Nat → List Nat
  | b0 :: b1 :: b2 :: b3 :: rest =>
    ((((b0 <<< 8) ||| b1) <<< 8 ||| b2) <<< 8 ||| b3) :: toWords rest
  | _ => []

/-- Extend the 16 chunk words to the 64-entry message schedule. -/
def extendW : Nat → Array Nat → Array Nat
  | 0, ws => ws
  | n + 1, ws =>
    let i := ws.size
    let w := w32 (smallSigma1 (ws.getD (i - 2) 0) + ws.getD (i - 7) 0 +
                  smallSigma0 (ws.getD (i - 15) 0) + ws.getD (i - 16) 0)
    extendW n (ws.push w)

/-- The eight working variables. -/
structure Hash8 where
  a : Nat
  b : Nat
  c : Nat
  d : Nat
  e : Nat
  f : Nat
  g : Nat
  h : Nat

/-- One compression round. -/
def round (s : Hash8) (wk : Nat × Nat) : Hash8 :=
  let t1 := w32 (s.h + bigSigma1 s.e + ch s.e s.f s.g + wk.2 + wk.1)
  let t2 := w32 (bigSigma0 s.a + maj s.a s.b s.c)
  ⟨w32 (t1 + t2), s.a, s.b, s.c, w32 (s.d + t1), s.e, s.f, s.g⟩

/-- Process one 512-bit chunk (given as its 16 words). -/
def processChunk (hs : Hash8) (chunk : List Nat) : Hash8 :=
  let ws := (extendW 48 (Array.mk chunk)).toList
  let s := (ws.zip K).foldl round hs
  ⟨w32 (hs.a + s.a), w32 (hs.b + s.b), w32 (hs.c + s.c), w32 (hs.d + s.d),
   w32 (hs.e + s.e), w32 (hs.f + s.f), w32 (hs.g + s.g), w32 (hs.h + s.h)⟩

/-- Fold over the chunks (16 words each) of the padded message. -/
def processAll (hs : Hash8) (ws : List Nat) : Hash8 :=
  if h : ws.isEmpty then hs
  else processAll (processChunk hs (ws.take 16)) (ws.drop 16)
termination_by ws.length
decreasing_by
  cases ws with
  | nil => simp at h
  | cons x xs => simp only [List.length_drop, List.length_cons]; omega

def initH : Hash8 :=
  ⟨1779033703, 3144134277, 1013904242, 2773480762,
   1359893119, 2600822924, 528734635, 1541459225⟩

/-- Lowercase hex digit. -/
def hexDigit (n : Nat) : Char :=
  if n < 10 then Char.ofNat (48 + n) else Char.ofNat (87 + n)

/-- Fixed-width big-endian lowercase hex rendering. -/
def toHexFixed : Nat → Nat → List Char
  | 0, _ => []
  | w + 1, v => toHexFixed w (v >>> 4) ++ [hexDigit (v &&& 15)]

/-- UTF-8 bytes of one character. -/
def utf8Char (c : Char) : List Nat :=
  let n := c.toNat
  if n < 128 then [n]
  else if n < 2048 then [192 ||| (n >>> 6), 128 ||| (n &&& 63)]
  else if n < 65536 then
    [224 ||| (n >>> 12), 128 ||| ((n >>> 6) &&& 63), 128 ||| (n &&& 63)]
  else
    [240 ||| (n >>> 18), 128 ||| ((n >>> 12) &&& 63),
     128 ||| ((n >>> 6) &&& 63), 128 ||| (n &&& 63)]

/-- UTF-8 bytes of a string (`str.encode("utf-8")`). -/
def utf8Bytes (s : String) : List Nat :=
  (s.data.map utf8Char).flatten

end SHA256

/-- `hashlib.sha256(data).hexdigest()` for the UTF-8 bytes of a string. -/
def sha256hex (s : String) : String :=
  let hs := SHA256.processAll SHA256.initH (SHA256.toWords (SHA256.pad (SHA256.utf8Bytes s)))
  String.mk ([hs.a, hs.b, hs.c, hs.d, hs.e, hs.f, hs.g, hs.h].map (SHA256.toHexFixed 8)).flatten

/-!  ## Proof-of-Work (`gossip/pow.py`) -/

/-- Python f-string interpolation of a JSON value (`f"{node_id}{nonce}"`).
The container cases render via `repr`, which no reachable code path and no
theorem below exercises (`nonce` and `node_id` are numbers or strings in
every protocol flow). -/
def pyStr : Json → String
  | .null => "None"
  | .bool true => "True"
  | .bool false => "False"
  | .num n => toString n
  | .str s => s
  | .arr _ => "<list repr — unreachable in the protocol>"
  | .obj _ => "<dict repr — unreachable in the protocol>"

/-- `"0" * k` — the required digest prefix. -/
def powPrefix (k : Nat) : String := String.mk (List.replicate k '0')

/-- The dictionary `compute_pow` returns.  `elapsed_ms` is a wall-clock
measurement (not modelled; `validate_pow` never reads it). -/
def pow_result (k : Nat) (nonce : Nat) (digest : String) : Json :=
  .obj [("hash_alg", .str "sha256"),
        ("difficulty_k", .num k),
        ("nonce", .num nonce),
        ("digest_hex", .str digest),
        ("elapsed_ms", .num 0)]

/-- The search loop of `compute_pow`, starting at `nonce`; `fuel` bounds the
number of nonces tried (the source loops unboundedly until success). -/
def compute_pow_from (node_id : String) (k : Nat) (nonce : Nat) : Nat → Option Json
  | 0 => none
  | fuel + 1 =>
    let digest := sha256hex (node_id ++ toString nonce)
    if digest.startsWith (powPrefix k) then some (pow_result k nonce digest)
    else compute_pow_from node_id k (nonce + 1) fuel

/-- `compute_pow(node_id, k)` (`gossip/pow.py`): brute-force search for a
nonce whose digest has `k` leading hex zeros. -/
def compute_pow (node_id : String) (k : Nat) (fuel : Nat) : Option Json :=
  compute_pow_from node_id k 0 fuel

/-- `validate_pow(node_id, pow_data, required_k)` (`gossip/pow.py`).
`node_id` is the raw `sender_id` JSON value the caller passes in.
A truthy non-mapping `pow_data` makes the source raise `AttributeError`
out of the handler, which rejects the HELLO exactly like returning
`False`; a non-numeric `difficulty_k` likewise raises at the `<`
comparison (booleans compare as 0/1 in Python and are kept). -/
def validate_pow (node_id : Json) (pow_data : Json) (required_k : Nat) : Bool :=
  if !pow_data.truthy then false
  else
    match pow_data with
    | .obj kvs =>
      let nonce := Json.getD kvs "nonce" .null
      let claimed_digest := Json.getD kvs "digest_hex" (.str "")
      let claimed_k : Option Int :=
        match Json.getD kvs "difficulty_k" (.num 0) with
        | .num n => some n
        | .bool b => some (if b then 1 else 0)
        | _ => none
      if nonce == Json.null then false
      else
        match claimed_k with
        | some ck =>
          if ck < (required_k : Int) then false
          else
            let actual := sha256hex (pyStr node_id ++ pyStr nonce)
            if Json.str actual != claimed_digest then false
            else actual.startsWith (powPrefix required_k)
        | none => false
    | _ => false

/-!  ## The node (`gossip/node.py`)

State is explicit.  Python `dict`s / `OrderedDict`s are insertion-ordered
association lists; assigning to an existing key updates the value in place
(the position is unchanged), assigning a new key appends.  Keys are the raw
JSON values the handlers index with (addresses, message ids).  `time.time()`
ticks are `Nat`s supplied by the caller, `uuid4().hex` draws are supplied as
`fresh` strings, and `self.rng.sample(population, k)` is an explicit
`sample` function argument (the seeded Mersenne–Twister stream is external
entropy; theorems about sampling quantify over every function that returns
`k` elements of the population, which the real stream satisfies). -/

/-- `SEEN_SET_MAX` (`gossip/node.py`). -/
def SEEN_SET_MAX : Nat := 10000

/-- The `PeerInfo` dataclass. -/
structure PeerInfo where
  node_id : Json
  addr : Json
  last_seen : Nat
deriving DecidableEq

/-- The configuration fields the protocol handlers read
(`gossip/config.py`; `self_addr` is the property `"127.0.0.1:{port}"`).
The CLI parses plain ints; a negative `peer_limit` makes `len(peers) >=
peer_limit` always true, exactly like `0`, so `Nat` is adequate. -/
structure GossipConfig where
  self_addr : String
  fanout : Nat
  peer_limit : Nat
  pow_k : Nat
deriving DecidableEq

/-- The mutable node state the handlers touch. -/
structure NodeState where
  node_id : String
  peers : List (Json × PeerInfo)
  seen : List Json
  message_store : List (Json × Message)
deriving DecidableEq

/-- `GossipNode._evict_oldest_peer`'s `min(self.peers, key=...)`: Python
`min` keeps the first element among ties in iteration (= insertion)
order. -/
def _oldest_peer : List (Json × PeerInfo) → Option (Json × PeerInfo)
  | [] => none
  | p :: rest =>
    some (rest.foldl (fun best q => if q.2.last_seen < best.2.last_seen then q else best) p)

/-- `GossipNode._evict_oldest_peer`: drop the least-recently-seen entry
(no-op on an empty table). -/
def _evict_oldest_peer (peers : List (Json × PeerInfo)) : List (Json × PeerInfo) :=
  match _oldest_peer peers with
  | none => peers
  | some p => peers.eraseP (fun q => q.1 == p.1)

/-- `GossipNode._add_peer(node_id, addr)` at wall-clock `now`. -/
def _add_peer (cfg : GossipConfig) (peers : List (Json × PeerInfo))
    (node_id addr : Json) (now : Nat) : List (Json × PeerInfo) :=
  if addr == .str cfg.self_addr then peers
  else if (peers.find? (fun p => p.1 == addr)).isSome then
    peers.map (fun p =>
      if p.1 == addr then
        (p.1, { p.2 with
                last_seen := now,
                node_id := if node_id.truthy then node_id else p.2.node_id })
      else p)
  else
    let peers' := if peers.length ≥ cfg.peer_limit then _evict_oldest_peer peers else peers
    peers' ++ [(addr, ⟨node_id, addr, now⟩)]

/-- `GossipNode._remove_peer(addr)`. -/
def _remove_peer (peers : List (Json × PeerInfo)) (addr : Json) : List (Json × PeerInfo) :=
  peers.eraseP (fun q => q.1 == addr)

/-- The timeout sweep of `GossipNode._ping_loop`: remove every peer not
seen within `peer_timeout` (Python computes `now - last_seen` on floats;
clocks only move forward, and `Nat` subtraction agrees on that range). -/
def _sweep_peers (peers : List (Json × PeerInfo)) (now timeout : Nat) :
    List (Json × PeerInfo) :=
  peers.filter (fun p => !(now - p.2.last_seen > timeout))

/-- The `while len(self.seen) > SEEN_SET_MAX` loop of `_mark_seen`: pop the
oldest seen key and drop its twin from the store. -/
def _evict_seen : List Json → List (Json × Message) → List Json × List (Json × Message)
  | seen, store =>
    if seen.length > SEEN_SET_MAX then
      match seen with
      | [] => ([], store)
      | oldest :: rest => _evict_seen rest (store.eraseP (fun q => q.1 == oldest))
    else (seen, store)

/-- `GossipNode._mark_seen(msg_id, msg)`. -/
def _mark_seen (seen : List Json) (store : List (Json × Message))
    (msg_id : Json) (m : Option Message) : List Json × List (Json × Message) :=
  let seen' := if seen.contains msg_id then seen else seen ++ [msg_id]
  let store' :=
    match m with
    | none => store
    | some msg =>
      if (store.find? (fun q => q.1 == msg_id)).isSome then
        store.map (fun q => if q.1 == msg_id then (q.1, msg) else q)
      else store ++ [(msg_id, msg)]
  _evict_seen seen' store'

/-- `Message.gossip(...)` (`gossip/message.py`): the GOSSIP factory.
`fresh` is the `uuid4().hex` drawn by `msg_id or uuid.uuid4().hex`, `now`
the wall clock in ms (used both for the `timestamp_ms` dataclass default
and for `origin_timestamp_ms or int(time.time() * 1000)`). -/
def Message.gossip (sender_id sender_addr : String) (data : Json) (origin_id : Json)
    (ttl : Int) (topic : Json) (origin_timestamp_ms : Json) (msg_id : Json)
    (fresh : String) (now : Nat) : Message :=
  { msg_type := "GOSSIP"
    sender_id := .str sender_id
    sender_addr := .str sender_addr
    ttl := .num ttl
    msg_id := if msg_id.truthy then msg_id else .str fresh
    version := .num 1
    timestamp_ms := .num now
    payload := .obj [("topic", topic),
                     ("data", data),
                     ("origin_id", origin_id),
                     ("origin_timestamp_ms",
                      if origin_timestamp_ms.truthy then origin_timestamp_ms
                      else .num now)] }

/-- `Message.peers_list(...)`: the PEERS_LIST factory (dataclass defaults:
ttl 8, version 1, fresh msg_id, current clock). -/
def Message.peers_list (sender_id sender_addr : String) (peers : List Json)
    (fresh : String) (now : Nat) : Message :=
  { msg_type := "PEERS_LIST"
    sender_id := .str sender_id
    sender_addr := .str sender_addr
    ttl := .num 8
    msg_id := .str fresh
    version := .num 1
    timestamp_ms := .num now
    payload := .obj [("peers", .arr peers)] }

/-- `GossipNode._send_peers_list(target_addr, max_peers=20)`: build the
PEERS_LIST reply from the first `max_peers` table entries
(`list(self.peers.values())[:max_peers]`).  Result: `(target, reply)`. -/
def _send_peers_list (cfg : GossipConfig) (st : NodeState) (target_addr : Json)
    (max_peers : Nat) (fresh : String) (now : Nat) : Json × Message :=
  let entries := (st.peers.take max_peers).map
    (fun p => Json.obj [("node_id", p.2.node_id), ("addr", p.2.addr)])
  (target_addr, Message.peers_list st.node_id cfg.self_addr entries fresh now)

/-- `GossipNode._handle_hello`: PoW gate, then touch the sender, then reply
with the peer list.  Returns the new state and the sent datagrams. -/
def _handle_hello (cfg : GossipConfig) (st : NodeState) (msg : Message)
    (now : Nat) (fresh : String) : NodeState × List (Json × Message) :=
  if cfg.pow_k > 0 && !(validate_pow msg.sender_id (msg.payload.pget "pow" .null) cfg.pow_k) then
    (st, [])
  else
    let st' := { st with peers := _add_peer cfg st.peers msg.sender_id msg.sender_addr now }
    (st', [_send_peers_list cfg st' msg.sender_addr 20 fresh now])

/-- `GossipNode._forward_gossip(original, new_ttl)`: forward to up to
`fanout` sampled peers, excluding the inbound sender's address.  `sample`
stands for `self.rng.sample`; `fresh i` is the uuid the i-th target's
factory call would draw (unused unless the original `msg_id` is falsy). -/
def _forward_gossip (cfg : GossipConfig) (st : NodeState)
    (sample : List Json → Nat → List Json) (original : Message) (new_ttl : Int)
    (fresh : Nat → String) (now : Nat) : List (Json × Message) :=
  let candidates := (st.peers.map (fun p => p.1)).filter (fun a => a != original.sender_addr)
  let k := min cfg.fanout candidates.length
  if k == 0 then []
  else
    (sample candidates k).enum.map (fun it =>
      (it.2,
       Message.gossip st.node_id cfg.self_addr
         (original.payload.pget "data" (.str ""))
         (original.payload.pget "origin_id" (.str st.node_id))
         new_ttl
         (original.payload.pget "topic" (.str "news"))
         (original.payload.pget "origin_timestamp_ms" .null)
         original.msg_id (fresh it.1) now))

/-- `GossipNode._handle_gossip`: duplicate filter, mark seen, touch the
sender, forward while the hop budget lasts.  A non-numeric `ttl` makes
`msg.ttl - 1` raise, aborting the handler after the state updates — the
same observable outcome as not forwarding (a `bool` ttl is an int in
Python: `True - 1 = 0`, `False - 1 = -1`, neither forwards). -/
def _handle_gossip (cfg : GossipConfig) (st : NodeState)
    (sample : List Json → Nat → List Json) (msg : Message)
    (now : Nat) (fresh : Nat → String) : NodeState × List (Json × Message) :=
  if st.seen.contains msg.msg_id then (st, [])
  else
    let ss := _mark_seen st.seen st.message_store msg.msg_id (some msg)
    let st' := { st with
                 peers := _add_peer cfg st.peers msg.sender_id msg.sender_addr now,
                 seen := ss.1,
                 message_store := ss.2 }
    match msg.ttl with
    | .num t =>
      if t - 1 ≤ 0 then (st', [])
      else (st', _forward_gossip cfg st' sample msg (t - 1) fresh now)
    | _ => (st', [])

/-!  ### Event-sequence models

`gossipRun` feeds a sequence of inbound GOSSIP datagrams to `_handle_gossip`;
the per-event externals (`sample`, `fresh`, `now`) are step-indexed.
`PeerOp`/`runPeerOps` and `runMarks` replay arbitrary peer-table and
mark-seen histories for the invariant claims. -/

/-- Run `_handle_gossip` over a list of inbound envelopes, collecting the
datagrams each event sent (step index `i` selects the externals). -/
def gossipRun (cfg : GossipConfig) (sample : Nat → List Json → Nat → List Json)
    (fresh : Nat → Nat → String) (now : Nat → Nat) :
    Nat → NodeState → List Message → NodeState × List (List (Json × Message))
  | _, st, [] => (st, [])
  | i, st, m :: ms =>
    let so := _handle_gossip cfg st (sample i) m (now i) (fresh i)
    let rest := gossipRun cfg sample fresh now (i + 1) so.1 ms
    (rest.1, so.2 :: rest.2)

/-- How many of the inbound events carried message id `id` and made the node
emit at least one forwarded datagram. -/
def fwdCount (msgs : List Message) (outs : List (List (Json × Message))) (id : Json) : Nat :=
  ((msgs.zip outs).filter (fun p => p.1.msg_id == id && !p.2.isEmpty)).length

/-- One peer-table operation (the mutations `gossip/node.py` performs on
`self.peers`). -/
inductive PeerOp where
  | touch (node_id addr : Json) (now : Nat)
  | remove (addr : Json)
  | evict
  | sweep (now timeout : Nat)

/-- Apply one peer-table operation. -/
def applyPeerOp (cfg : GossipConfig) (peers : List (Json × PeerInfo)) :
    PeerOp → List (Json × PeerInfo)
  | .touch node_id addr now => _add_peer cfg peers node_id addr now
  | .remove addr => _remove_peer peers addr
  | .evict => _evict_oldest_peer peers
  | .sweep now timeout => _sweep_peers peers now timeout

/-- Replay a history of peer-table operations from the empty table a node
starts with. -/
def runPeerOps (cfg : GossipConfig) (ops : List PeerOp) : List (Json × PeerInfo) :=
  ops.foldl (applyPeerOp cfg) []

/-- Replay a history of `_mark_seen` calls from the empty seen set and
store a node starts with. -/
def runMarks (calls : List (Json × Option Message)) : List Json × List (Json × Message) :=
  calls.foldl (fun ss c => _mark_seen ss.1 ss.2 c.1 c.2) ([], [])

/-!  ### Concrete scenarios used by individual claims -/

namespace C5x

/-- Defaults: fanout 3, peer_limit 20, PoW off. -/
def cfg : GossipConfig := ⟨"127.0.0.1:8000", 3, 20, 0⟩

def peerAddr : Json := .str "127.0.0.1:9001"

def senderAddr : Json := .str "127.0.0.1:9002"

def pInfo : PeerInfo := ⟨.str "pid", peerAddr, 0⟩

def sInfo : PeerInfo := ⟨.str "sid", senderAddr, 0⟩

/-- The duplicated gossip id. -/
def xId : Json := .str "x"

/-- Node state reached after one HELLO from `peerAddr`: one known peer. -/
def st0 : NodeState := ⟨"n0", [(peerAddr, pInfo)], [], []⟩

/-- Peer table once `senderAddr` has also been touched. -/
def P2 : List (Json × PeerInfo) := [(peerAddr, pInfo), (senderAddr, sInfo)]

/-- The gossip envelope that gets forwarded twice (ttl 2, so one hop left). -/
def gX : Message :=
  { msg_type := "GOSSIP", sender_id := .str "sid", sender_addr := senderAddr,
    payload := .obj [("topic", .str "t"), ("data", .str "d"),
                     ("origin_id", .str "o"), ("origin_timestamp_ms", .num 5)],
    ttl := .num 2, version := .num 1, msg_id := xId, timestamp_ms := .num 0 }

/-- The i-th filler envelope: a fresh numeric msg_id, ttl 1 (never
forwarded), sent by the already-known peer. -/
def filler (i : Nat) : Message :=
  { msg_type := "GOSSIP", sender_id := .str "pid", sender_addr := peerAddr,
    payload := .obj [("topic", .str "t"), ("data", .str "d"),
                     ("origin_id", .str "o"), ("origin_timestamp_ms", .num 5)],
    ttl := .num 1, version := .num 1, msg_id := .num i, timestamp_ms := .num 0 }

def fillers (j : Nat) : List Message := (List.range j).map filler

/-- Seen-set segment after `j` fillers. -/
def nums (j : Nat) : List Json := (List.range j).map (fun (i : Nat) => .num (i : Int))

/-- Store segment after `j` fillers. -/
def pairs (j : Nat) : List (Json × Message) :=
  (List.range j).map (fun (i : Nat) => ((.num i : Json), filler i))

/-- In both forwarding events the candidate list is the singleton
`[peerAddr]`, where `random.sample(candidates, 1)` necessarily returns
`[peerAddr]`; `take` realises that. -/
def sampleC : Nat → List Json → Nat → List Json := fun _ l k => l.take k

def freshC : Nat → Nat → String := fun _ _ => "u"

def nowC : Nat → Nat := fun _ => 0

/-- State after the first `gX` event. -/
def st1 : NodeState := ⟨"n0", P2, [xId], [(xId, gX)]⟩

/-- State after the first `gX` event and `j ≤ 9999` fillers. -/
def stF (j : Nat) : NodeState := ⟨"n0", P2, xId :: nums j, (xId, gX) :: pairs j⟩

/-- State after all 10000 fillers: the seen set overflowed and evicted
`xId` (and its stored twin). -/
def stFull : NodeState := ⟨"n0", P2, nums 10000, pairs 10000⟩

/-- The inbound event sequence: `gX`, then 10000 distinct fillers, then
`gX` again. -/
def msgs : List Message := gX :: (fillers 10000 ++ [gX])

end C5x

namespace C6x

def cfg : GossipConfig := ⟨"127.0.0.1:8000", 3, 20, 0⟩

def st : NodeState := ⟨"n0", [(.str "127.0.0.1:9001", ⟨.str "pid", .str "127.0.0.1:9001", 0⟩)], [], []⟩

/-- A GOSSIP envelope whose payload carries `origin_timestamp_ms` with the
JSON-representable value `0` (falsy in Python). -/
def gmsg : Message :=
  { msg_type := "GOSSIP", sender_id := .str "sid", sender_addr := .str "127.0.0.1:9002",
    payload := .obj [("topic", .str "t"), ("data", .str "d"),
                     ("origin_id", .str "o"), ("origin_timestamp_ms", .num 0)],
    ttl := .num 3, version := .num 1, msg_id := .str "m1", timestamp_ms := .num 0 }

/-- A well-formed gossip envelope (truthy msg_id and origin_timestamp_ms)
for the witness. -/
def gok : Message :=
  { msg_type := "GOSSIP", sender_id := .str "sid", sender_addr := .str "127.0.0.1:9002",
    payload := .obj [("topic", .str "t"), ("data", .str "d"),
                     ("origin_id", .str "o"), ("origin_timestamp_ms", .num 5)],
    ttl := .num 3, version := .num 1, msg_id := .str "m1", timestamp_ms := .num 0 }

def takeSample : List Json → Nat → List Json := fun l k => l.take k

end C6x

namespace C8x

def cfg : GossipConfig := ⟨"127.0.0.1:8000", 3, 20, 1⟩

def st : NodeState := ⟨"n0", [(.str "127.0.0.1:9001", ⟨.str "pid", .str "127.0.0.1:9001", 0⟩)], [], []⟩

/-- A HELLO whose payload carries no `pow` token at all (`validate_pow`
rejects it at the `if not pow_data` gate). -/
def hello : Message :=
  { msg_type := "HELLO", sender_id := .str "sid", sender_addr := .str "127.0.0.1:9002",
    payload := .obj [("capabilities", .arr [.str "udp", .str "json"])],
    ttl := .num 8, version := .num 1, msg_id := .str "h1", timestamp_ms := .num 0 }

end C8x

namespace C10x

/-- `peer_limit` 25: more peers than the hard-coded reply cap of 20. -/
def cfg : GossipConfig := ⟨"127.0.0.1:8000", 3, 25, 0⟩

/-- 21 known peers. -/
def st : NodeState :=
  ⟨"n0",
   (List.range 21).map (fun i => ((.num i : Json), ⟨.null, .num i, 0⟩)),
   [], []⟩

def hello : Message :=
  { msg_type := "HELLO", sender_id := .str "sid", sender_addr := .str "127.0.0.1:9002",
    payload := .obj [("capabilities", .arr [.str "udp", .str "json"])],
    ttl := .num 8, version := .num 1, msg_id := .str "h1", timestamp_ms := .num 0 }

end C10x

/-- The invariant the C3 claim asserts of the peer table. -/
def PeerInv (cfg : GossipConfig) (t : List (Json × PeerInfo)) : Prop :=
  t.length ≤ cfg.peer_limit ∧ ∀ p ∈ t, p.1 ≠ .str cfg.self_addr

/-- The invariant the C4 claim asserts of the seen set and message store
(key uniqueness in the store is the `dict` fact the preservation argument
relies on). -/
def SeenInv (seen : List Json) (store : List (Json × Message)) : Prop :=
  seen.length ≤ SEEN_SET_MAX ∧ (∀ p ∈ store, p.1 ∈ seen) ∧
    (store.map Prod.fst).Nodup

/-!  ## Theorems -/

/-- A key absent from a JSON mapping makes `dict.get` return its default. -/
theorem Json.getD_of_not_hasKey (kvs : List (String × Json)) (k : String) (d : Json)
    (h : Json.hasKey kvs k = false) : Json.getD kvs k d = d := by
  unfold Json.hasKey at h
  unfold Json.getD
  cases hf : List.find? (fun p => p.1 == k) kvs with
  | none => rfl
  | some p => rw [hf] at h; simp at h

/-- C1: decoding the bytes produced by encoding a well-formed envelope with
a recognised kind yields the envelope back (`decode(encode(m)) == m`). -/
theorem C1_encode_decode_roundtrip (fresh : String) (m : Message)
    (h : MSG_TYPES.contains m.msg_type = true) :
    Message.from_bytes fresh (Message.to_bytes m) = some m := by
  have e : Message.from_bytes fresh (Message.to_bytes m)
      = if MSG_TYPES.contains m.msg_type then some m else none := rfl
  rw [e, h]
  rfl

/-- Witness for C1 at a concrete PING envelope. -/
theorem C1_encode_decode_roundtrip_witness :
    MSG_TYPES.contains "PING" = true ∧
    Message.from_bytes "f"
      (Message.to_bytes
        { msg_type := "PING", sender_id := .str "abc", sender_addr := .str "127.0.0.1:8000",
          payload := .obj [("ping_id", .str "p1"), ("seq", .num 17)],
          ttl := .num 8, version := .num 1, msg_id := .str "id1", timestamp_ms := .num 3 })
      = some
        { msg_type := "PING", sender_id := .str "abc", sender_addr := .str "127.0.0.1:8000",
          payload := .obj [("ping_id", .str "p1"), ("seq", .num 17)],
          ttl := .num 8, version := .num 1, msg_id := .str "id1", timestamp_ms := .num 3 } :=
  ⟨by decide,
   C1_encode_decode_roundtrip "f"
     { msg_type := "PING", sender_id := .str "abc", sender_addr := .str "127.0.0.1:8000",
       payload := .obj [("ping_id", .str "p1"), ("seq", .num 17)],
       ttl := .num 8, version := .num 1, msg_id := .str "id1", timestamp_ms := .num 3 }
     (by decide)⟩

/-- C7: the decode contract.  Decode fails exactly on: a non-textual frame
(`garbage`), a frame that is not a top-level record, and an unrecognised
kind — where a frame *missing the required `msg_type` slot* reads the
default `""`, which is not recognised, so missing-required-slot failures
are the `msg_type` instances of the third mode and nothing else is
required; and when a non-essential field is missing, decode succeeds with
the defaults `version=1`, `ttl=0`, `timestamp_ms=0` and empty payload. -/
theorem C7_decode_contract :
    (∀ fresh, Message.from_bytes fresh .garbage = none) ∧
    (∀ fresh j, (∀ kvs, j ≠ Json.obj kvs) → Message.from_bytes fresh (.value j) = none) ∧
    (∀ fresh kvs, Message.from_bytes fresh (.value (.obj kvs)) = none ↔
      ∀ s, Json.getD kvs "msg_type" (.str "") = .str s → MSG_TYPES.contains s = false) ∧
    (∀ fresh kvs s, Json.getD kvs "msg_type" (.str "") = .str s →
      MSG_TYPES.contains s = true →
      ∃ m, Message.from_bytes fresh (.value (.obj kvs)) = some m ∧
        (Json.hasKey kvs "version" = false → m.version = .num 1) ∧
        (Json.hasKey kvs "ttl" = false → m.ttl = .num 0) ∧
        (Json.hasKey kvs "timestamp_ms" = false → m.timestamp_ms = .num 0) ∧
        (Json.hasKey kvs "payload" = false → m.payload = .obj [])) := by
  refine ⟨fun _ => rfl, ?_, ?_, ?_⟩
  · intro fresh j hj
    cases j with
    | obj kvs => exact absurd rfl (hj kvs)
    | null => rfl
    | bool b => rfl
    | num n => rfl
    | str s => rfl
    | arr l => rfl
  · intro fresh kvs
    cases hmt : Json.getD kvs "msg_type" (.str "") with
    | str s =>
      simp only [Message.from_bytes, hmt]
      by_cases hc : MSG_TYPES.contains s = true
      · rw [hc, if_pos rfl]
        constructor
        · intro hnone; cases hnone
        · intro hall
          have := hall s rfl
          rw [hc] at this
          cases this
      · have hc' : MSG_TYPES.contains s = false := by
          cases hcc : MSG_TYPES.contains s with
          | true => exact absurd hcc hc
          | false => rfl
        rw [hc', if_neg Bool.false_ne_true]
        constructor
        · intro _ s' hs'
          cases hs'
          exact hc'
        · intro _
          rfl
    | null =>
      simp only [Message.from_bytes, hmt]
      constructor
      · intro _ s hs; cases hs
      · intro _; trivial
    | bool b =>
      simp only [Message.from_bytes, hmt]
      constructor
      · intro _ s hs; cases hs
      · intro _; trivial
    | num n =>
      simp only [Message.from_bytes, hmt]
      constructor
      · intro _ s hs; cases hs
      · intro _; trivial
    | arr l =>
      simp only [Message.from_bytes, hmt]
      constructor
      · intro _ s hs; cases hs
      · intro _; trivial
    | obj l =>
      simp only [Message.from_bytes, hmt]
      constructor
      · intro _ s hs; cases hs
      · intro _; trivial
  · intro fresh kvs s hmt hc
    refine ⟨{ version := Json.getD kvs "version" (.num 1),
              msg_id := Json.getD kvs "msg_id" (.str fresh),
              msg_type := s,
              sender_id := Json.getD kvs "sender_id" (.str ""),
              sender_addr := Json.getD kvs "sender_addr" (.str ""),
              timestamp_ms := Json.getD kvs "timestamp_ms" (.num 0),
              ttl := Json.getD kvs "ttl" (.num 0),
              payload := Json.getD kvs "payload" (.obj []) }, ?_, ?_, ?_, ?_, ?_⟩
    · simp only [Message.from_bytes, hmt]
      rw [hc, if_pos rfl]
    · intro hk; exact Json.getD_of_not_hasKey kvs "version" (.num 1) hk
    · intro hk; exact Json.getD_of_not_hasKey kvs "ttl" (.num 0) hk
    · intro hk; exact Json.getD_of_not_hasKey kvs "timestamp_ms" (.num 0) hk
    · intro hk; exact Json.getD_of_not_hasKey kvs "payload" (.obj []) hk

/-- Witness for C7: the spec's literal bad frames all fail, and a minimal
PING decodes with the defaults. -/
theorem C7_decode_contract_witness :
    Message.from_bytes "f" .garbage = none ∧
    Message.from_bytes "f" (.value (.arr [.num 1, .num 2, .num 3])) = none ∧
    Message.from_bytes "f" (.value (.obj [("msg_type", .str "UNKNOWN")])) = none ∧
    ∃ m, Message.from_bytes "f" (.value (.obj [("msg_type", .str "PING")])) = some m ∧
      m.version = .num 1 ∧ m.ttl = .num 0 ∧ m.timestamp_ms = .num 0 ∧ m.payload = .obj [] := by
  refine ⟨C7_decode_contract.1 "f",
          C7_decode_contract.2.1 "f" _ (fun kvs h => by cases h),
          (C7_decode_contract.2.2.1 "f" [("msg_type", .str "UNKNOWN")]).mpr ?_,
          ?_⟩
  · intro s hs
    have : s = "UNKNOWN" := (Json.str.inj hs).symm
    rw [this]
    decide
  · obtain ⟨m, hm, h1, h2, h3, h4⟩ :=
      C7_decode_contract.2.2.2 "f" [("msg_type", .str "PING")] "PING" rfl (by decide)
    exact ⟨m, hm, h1 (by decide), h2 (by decide), h3 (by decide), h4 (by decide)⟩

/-- C8: when PoW is required and the token in a HELLO payload fails
verification against the sender's declared identity, the handler drops the
message: nothing is sent and the whole state — in particular the peer
table — is left unchanged. -/
theorem C8_hello_invalid_pow_drops (cfg : GossipConfig) (st : NodeState) (msg : Message)
    (now : Nat) (fresh : String)
    (hk : 0 < cfg.pow_k)
    (hv : validate_pow msg.sender_id (msg.payload.pget "pow" .null) cfg.pow_k = false) :
    _handle_hello cfg st msg now fresh = (st, []) := by
  unfold _handle_hello
  rw [hv]
  have hd : decide (cfg.pow_k > 0) = true := decide_eq_true hk
  simp [hd]

/-- Witness for C8: a node with `pow_k = 1` receives a HELLO carrying no
token; the peer table is untouched and no reply is sent. -/
theorem C8_hello_invalid_pow_drops_witness :
    0 < C8x.cfg.pow_k ∧
    validate_pow C8x.hello.sender_id (C8x.hello.payload.pget "pow" .null) C8x.cfg.pow_k = false ∧
    _handle_hello C8x.cfg C8x.st C8x.hello 7 "u" = (C8x.st, []) :=
  ⟨by decide, by decide,
   C8_hello_invalid_pow_drops C8x.cfg C8x.st C8x.hello 7 "u" (by decide) (by decide)⟩

/-- C10: the PEERS_LIST replying to a HELLO that passes the PoW gate is
built from the first 20 entries of the (post-touch) peer table —
`_send_peers_list`'s hard-coded `max_peers=20` default — so it carries at
most 20 peers, and with more than 20 table entries some peers are
omitted. -/
theorem C10_hello_reply_truncates (cfg : GossipConfig) (st : NodeState) (msg : Message)
    (now : Nat) (fresh : String)
    (hgate : 0 < cfg.pow_k →
      validate_pow msg.sender_id (msg.payload.pget "pow" .null) cfg.pow_k = true) :
    (_handle_hello cfg st msg now fresh).2 =
      [(msg.sender_addr,
        Message.peers_list st.node_id cfg.self_addr
          (((_handle_hello cfg st msg now fresh).1.peers.take 20).map
            (fun p => Json.obj [("node_id", p.2.node_id), ("addr", p.2.addr)])) fresh now)] ∧
    ((_handle_hello cfg st msg now fresh).1.peers.take 20).length ≤ 20 ∧
    (20 < (_handle_hello cfg st msg now fresh).1.peers.length →
      ((_handle_hello cfg st msg now fresh).1.peers.take 20).length
        < (_handle_hello cfg st msg now fresh).1.peers.length) := by
  have hcond : (decide (cfg.pow_k > 0) &&
      !validate_pow msg.sender_id (msg.payload.pget "pow" .null) cfg.pow_k) = false := by
    by_cases h : 0 < cfg.pow_k
    · rw [hgate h]
      simp
    · have : decide (cfg.pow_k > 0) = false := decide_eq_false h
      rw [this]
      simp
  unfold _handle_hello
  rw [hcond]
  simp only [Bool.false_eq_true, if_false, _send_peers_list]
  refine ⟨trivial, ?_, ?_⟩
  · rw [List.length_take]
    omega
  · intro hgt
    rw [List.length_take] at *
    omega

/-- Witness for C10: with `peer_limit = 25` and 21 known peers, the reply
to a verified HELLO lists only 20 of the (by then 22) table entries. -/
theorem C10_hello_reply_truncates_witness :
    (_handle_hello C10x.cfg C10x.st C10x.hello 7 "u").2 =
      [(C10x.hello.sender_addr,
        Message.peers_list C10x.st.node_id C10x.cfg.self_addr
          (((_handle_hello C10x.cfg C10x.st C10x.hello 7 "u").1.peers.take 20).map
            (fun p => Json.obj [("node_id", p.2.node_id), ("addr", p.2.addr)])) "u" 7)] ∧
    20 < (_handle_hello C10x.cfg C10x.st C10x.hello 7 "u").1.peers.length ∧
    ((_handle_hello C10x.cfg C10x.st C10x.hello 7 "u").1.peers.take 20).length
      < (_handle_hello C10x.cfg C10x.st C10x.hello 7 "u").1.peers.length :=
  ⟨(C10_hello_reply_truncates C10x.cfg C10x.st C10x.hello 7 "u"
      (fun h => absurd h (by decide))).1,
   by decide,
   (C10_hello_reply_truncates C10x.cfg C10x.st C10x.hello 7 "u"
      (fun h => absurd h (by decide))).2.2 (by decide)⟩

/-- Python's `min` folded over a peer table returns the start value or a
list element. -/
theorem oldest_peer_foldl_mem (rs : List (Json × PeerInfo)) (b : Json × PeerInfo) :
    rs.foldl (fun best q => if q.2.last_seen < best.2.last_seen then q else best) b = b ∨
    rs.foldl (fun best q => if q.2.last_seen < best.2.last_seen then q else best) b ∈ rs := by
  induction rs generalizing b with
  | nil => exact Or.inl rfl
  | cons q rs ih =>
    simp only [List.foldl_cons]
    rcases ih (if q.2.last_seen < b.2.last_seen then q else b) with h | h
    · rw [h]
      by_cases hq : q.2.last_seen < b.2.last_seen
      · rw [if_pos hq]; exact Or.inr (List.mem_cons_self q rs)
      · rw [if_neg hq]; exact Or.inl rfl
    · exact Or.inr (List.mem_cons_of_mem q h)

/-- The entry `_evict_oldest_peer` chooses is a table entry. -/
theorem oldest_peer_mem (peers : List (Json × PeerInfo)) (c : Json × PeerInfo)
    (h : _oldest_peer peers = some c) : c ∈ peers := by
  cases peers with
  | nil => cases h
  | cons p rest =>
    unfold _oldest_peer at h
    have hc := Option.some.inj h
    rcases oldest_peer_foldl_mem rest p with he | he
    · rw [← hc, he]; exact List.mem_cons_self p rest
    · rw [← hc]; exact List.mem_cons_of_mem p he

/-- Evicting from a non-empty table removes exactly one entry. -/
theorem evict_oldest_length (peers : List (Json × PeerInfo)) (h : peers ≠ []) :
    (_evict_oldest_peer peers).length + 1 = peers.length := by
  cases hc : _oldest_peer peers with
  | none => cases peers with
    | nil => exact absurd rfl h
    | cons p rest => cases hc
  | some c =>
    unfold _evict_oldest_peer
    rw [hc]
    exact List.length_eraseP_add_one (oldest_peer_mem peers c hc) (beq_self_eq_true c.1)

/-- Eviction only removes entries. -/
theorem evict_oldest_subset (peers : List (Json × PeerInfo)) :
    ∀ p ∈ _evict_oldest_peer peers, p ∈ peers := by
  unfold _evict_oldest_peer
  cases _oldest_peer peers with
  | none => exact fun p hp => hp
  | some c => exact fun p hp => (List.eraseP_sublist peers).subset hp

/-- Every peer-table operation preserves the invariant (for a positive
peer limit). -/
theorem applyPeerOp_preserves (cfg : GossipConfig) (hlim : 1 ≤ cfg.peer_limit)
    (t : List (Json × PeerInfo)) (op : PeerOp) (hinv : PeerInv cfg t) :
    PeerInv cfg (applyPeerOp cfg t op) := by
  obtain ⟨hlen, hkeys⟩ := hinv
  cases op with
  | touch nid addr now =>
    show PeerInv cfg (_add_peer cfg t nid addr now)
    unfold _add_peer
    by_cases ha : (addr == Json.str cfg.self_addr) = true
    · rw [if_pos ha]; exact ⟨hlen, hkeys⟩
    · rw [if_neg ha]
      have haddr : addr ≠ .str cfg.self_addr := ne_of_beq_false (Bool.not_eq_true _ ▸ ha)
      by_cases hf : (t.find? (fun p => p.1 == addr)).isSome = true
      · rw [if_pos hf]
        constructor
        · rw [List.length_map]; exact hlen
        · intro p hp
          obtain ⟨q, hq, hfq⟩ := List.mem_map.mp hp
          by_cases hqa : (q.1 == addr) = true
          · rw [if_pos hqa] at hfq
            rw [← hfq]
            exact hkeys q hq
          · rw [if_neg hqa] at hfq
            rw [← hfq]
            exact hkeys q hq
      · rw [if_neg hf]
        by_cases hcap : t.length ≥ cfg.peer_limit
        · rw [if_pos hcap]
          have hne : t ≠ [] := by
            intro he
            rw [he] at hcap
            simp at hcap
            omega
          constructor
          · rw [List.length_append]
            have := evict_oldest_length t hne
            simp only [List.length_cons, List.length_nil]
            omega
          · intro p hp
            rcases List.mem_append.mp hp with h | h
            · exact hkeys p (evict_oldest_subset t p h)
            · rcases List.mem_singleton.mp h with rfl
              exact haddr
        · rw [if_neg hcap]
          constructor
          · rw [List.length_append]
            simp only [List.length_cons, List.length_nil]
            omega
          · intro p hp
            rcases List.mem_append.mp hp with h | h
            · exact hkeys p h
            · rcases List.mem_singleton.mp h with rfl
              exact haddr
  | remove addr =>
    refine ⟨le_trans ((List.eraseP_sublist t).length_le) hlen, ?_⟩
    exact fun p hp => hkeys p ((List.eraseP_sublist t).subset hp)
  | evict =>
    show PeerInv cfg (_evict_oldest_peer t)
    refine ⟨?_, fun p hp => hkeys p (evict_oldest_subset t p hp)⟩
    unfold _evict_oldest_peer
    cases _oldest_peer t with
    | none => exact hlen
    | some c => exact le_trans ((List.eraseP_sublist t).length_le) hlen
  | sweep now timeout =>
    refine ⟨le_trans (List.length_filter_le _ t) hlen, ?_⟩
    exact fun p hp => hkeys p (List.mem_of_mem_filter hp)

/-- C3 (amended: the configured `peer_limit` is positive; a `peer_limit`
of `0` is violated by the very first insertion, see the counterexample):
after every sequence of peer-table operations from the empty table, the
table has at most `peer_limit` entries and never contains the node's own
address as a key. -/
theorem C3_peer_table_invariant (cfg : GossipConfig) (hlim : 1 ≤ cfg.peer_limit)
    (ops : List PeerOp) :
    (runPeerOps cfg ops).length ≤ cfg.peer_limit ∧
    ∀ p ∈ runPeerOps cfg ops, p.1 ≠ .str cfg.self_addr := by
  have main : ∀ (l : List PeerOp) (t : List (Json × PeerInfo)), PeerInv cfg t →
      PeerInv cfg (l.foldl (applyPeerOp cfg) t) := by
    intro l
    induction l with
    | nil => exact fun t h => h
    | cons op rest ih =>
      intro t h
      exact ih _ (applyPeerOp_preserves cfg hlim t op h)
  exact main ops [] ⟨Nat.zero_le _, by intro p hp; cases hp⟩

/-- Counterexample to C3 as stated: with the CLI-accepted configuration
`peer_limit = 0`, touching one peer from the empty table makes the table
size 1 > 0 (`_add_peer` evicts once — a no-op on the empty table — and
then inserts unconditionally). -/
theorem C3_peer_table_invariant_counterexample :
    ¬ ((runPeerOps ⟨"127.0.0.1:8000", 3, 0, 0⟩
          [PeerOp.touch (.str "n") (.str "127.0.0.1:9001") 0]).length ≤
       (⟨"127.0.0.1:8000", 3, 0, 0⟩ : GossipConfig).peer_limit) := by
  decide

/-- Witness for C3 at a concrete history that overflows a table of limit 1. -/
theorem C3_peer_table_invariant_witness :
    1 ≤ (⟨"127.0.0.1:8000", 3, 1, 0⟩ : GossipConfig).peer_limit ∧
    ((runPeerOps ⟨"127.0.0.1:8000", 3, 1, 0⟩
        [PeerOp.touch (.str "n1") (.str "127.0.0.1:9001") 0,
         PeerOp.touch (.str "n2") (.str "127.0.0.1:9002") 1]).length ≤
      (⟨"127.0.0.1:8000", 3, 1, 0⟩ : GossipConfig).peer_limit ∧
     ∀ p ∈ runPeerOps ⟨"127.0.0.1:8000", 3, 1, 0⟩
        [PeerOp.touch (.str "n1") (.str "127.0.0.1:9001") 0,
         PeerOp.touch (.str "n2") (.str "127.0.0.1:9002") 1],
        p.1 ≠ .str (⟨"127.0.0.1:8000", 3, 1, 0⟩ : GossipConfig).self_addr) :=
  ⟨by decide,
   C3_peer_table_invariant ⟨"127.0.0.1:8000", 3, 1, 0⟩ (by decide)
     [PeerOp.touch (.str "n1") (.str "127.0.0.1:9001") 0,
      PeerOp.touch (.str "n2") (.str "127.0.0.1:9002") 1]⟩

/-- The eviction loop leaves exactly `min (length) SEEN_SET_MAX` seen
entries. -/
theorem evict_seen_length (s : List Json) :
    ∀ t, (_evict_seen s t).1.length = min s.length SEEN_SET_MAX := by
  induction s with
  | nil =>
    intro t
    unfold _evict_seen
    rw [if_neg (by decide)]
    simp [SEEN_SET_MAX]
  | cons o rest ih =>
    intro t
    unfold _evict_seen
    by_cases h : (o :: rest).length > SEEN_SET_MAX
    · rw [if_pos h]
      rw [ih]
      simp only [List.length_cons] at h ⊢
      omega
    · rw [if_neg h]
      simp only [List.length_cons] at h ⊢
      omega

/-- After erasing the popped seen key from a store with unique keys, no
remaining entry carries that key. -/
theorem eraseP_key_not_mem (t : List (Json × Message)) (o : Json)
    (hnd : (t.map Prod.fst).Nodup) :
    ∀ p ∈ t.eraseP (fun q => q.1 == o), p.1 ≠ o := by
  intro p hp hpo
  have hpt : p ∈ t := (List.eraseP_sublist t).subset hp
  have hpred : (p.1 == o) = true := by simp [hpo]
  obtain ⟨a, l1, l2, hl1, hpa, ht, ht'⟩ :=
    @List.exists_of_eraseP _ (fun q => q.1 == o) t p hpt hpred
  rw [ht'] at hp
  rw [ht] at hnd
  have ha : a.1 = o := by simpa using hpa
  rcases List.mem_append.mp hp with h1 | h2
  · exact absurd hpred (hl1 p h1)
  · rw [List.map_append, List.map_cons] at hnd
    have hcons : (a.1 :: l2.map Prod.fst).Nodup := hnd.of_append_right
    apply (List.nodup_cons.mp hcons).1
    rw [ha, ← hpo]
    exact List.mem_map_of_mem Prod.fst h2

/-- The eviction loop keeps the store keyed inside the seen set, with
unique keys. -/
theorem evict_seen_preserves (s : List Json) :
    ∀ t, (∀ p ∈ t, p.1 ∈ s) → (t.map Prod.fst).Nodup →
      (∀ p ∈ (_evict_seen s t).2, p.1 ∈ (_evict_seen s t).1) ∧
      ((_evict_seen s t).2.map Prod.fst).Nodup := by
  induction s with
  | nil =>
    intro t hsub hnd
    unfold _evict_seen
    rw [if_neg (by decide)]
    exact ⟨hsub, hnd⟩
  | cons o rest ih =>
    intro t hsub hnd
    unfold _evict_seen
    by_cases h : (o :: rest).length > SEEN_SET_MAX
    · rw [if_pos h]
      apply ih
      · intro p hp
        have hne := eraseP_key_not_mem t o hnd p hp
        have hmem : p ∈ t := (List.eraseP_sublist t).subset hp
        rcases List.mem_cons.mp (hsub p hmem) with h' | h'
        · exact absurd h' hne
        · exact h'
      · exact List.Sublist.nodup ((List.eraseP_sublist t).map Prod.fst) hnd
    · rw [if_neg h]
      exact ⟨hsub, hnd⟩

/-- `_mark_seen` preserves the seen/store invariant. -/
theorem mark_seen_preserves (s : List Json) (t : List (Json × Message)) (mid : Json)
    (m : Option Message) (hinv : SeenInv s t) :
    SeenInv (_mark_seen s t mid m).1 (_mark_seen s t mid m).2 := by
  obtain ⟨hlen, hsub, hnd⟩ := hinv
  have key : ∀ (s2 : List Json) (t2 : List (Json × Message)),
      s2.length ≤ SEEN_SET_MAX + 1 → (∀ p ∈ t2, p.1 ∈ s2) → (t2.map Prod.fst).Nodup →
      SeenInv (_evict_seen s2 t2).1 (_evict_seen s2 t2).2 := by
    intro s2 t2 h1 h2 h3
    refine ⟨?_, (evict_seen_preserves s2 t2 h2 h3).1, (evict_seen_preserves s2 t2 h2 h3).2⟩
    rw [evict_seen_length]
    omega
  have hidm : mid ∈ (if s.contains mid = true then s else s ++ [mid]) := by
    by_cases hc : s.contains mid = true
    · rw [if_pos hc]; exact List.elem_iff.mp hc
    · rw [if_neg hc]; exact List.mem_append.mpr (Or.inr (List.mem_singleton.mpr rfl))
  have hsub' : ∀ p ∈ t, p.1 ∈ (if s.contains mid = true then s else s ++ [mid]) := by
    intro p hp
    by_cases hc : s.contains mid = true
    · rw [if_pos hc]; exact hsub p hp
    · rw [if_neg hc]; exact List.mem_append.mpr (Or.inl (hsub p hp))
  have hlen' : (if s.contains mid = true then s else s ++ [mid]).length ≤ SEEN_SET_MAX + 1 := by
    by_cases hc : s.contains mid = true
    · rw [if_pos hc]; omega
    · rw [if_neg hc]
      rw [List.length_append]
      simp only [List.length_cons, List.length_nil]
      omega
  cases m with
  | none =>
    simp only [_mark_seen]
    exact key _ _ hlen' hsub' hnd
  | some msg =>
    simp only [_mark_seen]
    by_cases hf : (t.find? (fun q => q.1 == mid)).isSome = true
    · rw [if_pos hf]
      apply key _ _ hlen'
      · intro p hp
        obtain ⟨q, hq, hfq⟩ := List.mem_map.mp hp
        have hkey : p.1 = q.1 := by
          by_cases hqa : (q.1 == mid) = true
          · rw [if_pos hqa] at hfq; rw [← hfq]
          · rw [if_neg hqa] at hfq; rw [← hfq]
        rw [hkey]
        exact hsub' q hq
      · have hmm : (t.map (fun q => if q.1 == mid then (q.1, msg) else q)).map Prod.fst
            = t.map Prod.fst := by
          rw [List.map_map]
          apply List.map_congr_left
          intro q _
          by_cases hqa : (q.1 == mid) = true
          · rw [Function.comp_apply, if_pos hqa]
          · rw [Function.comp_apply, if_neg hqa]
        rw [hmm]
        exact hnd
    · rw [if_neg hf]
      apply key _ _ hlen'
      · intro p hp
        rcases List.mem_append.mp hp with h | h
        · exact hsub' p h
        · rcases List.mem_singleton.mp h with rfl
          exact hidm
      · rw [List.map_append]
        simp only [List.map_cons, List.map_nil]
        rw [List.nodup_append]
        refine ⟨hnd, List.nodup_singleton mid, ?_⟩
        intro a ha hamem
        have haid : a = mid := List.mem_singleton.mp hamem
        rw [haid] at ha
        obtain ⟨q, hq, hqk⟩ := List.mem_map.mp ha
        have hnone : t.find? (fun q => q.1 == mid) = none := by
          cases hff : t.find? (fun q => q.1 == mid) with
          | none => rfl
          | some v => rw [hff] at hf; simp at hf
        have hnp := List.find?_eq_none.mp hnone q hq
        apply hnp
        simp [hqk]

/-- C4: after every history of mark-seen calls from the empty containers,
the seen set holds at most `SEEN_SET_MAX = 10000` ids and every key of the
message store is a member of the seen set. -/
theorem C4_seen_store_invariant (calls : List (Json × Option Message)) :
    (runMarks calls).1.length ≤ SEEN_SET_MAX ∧
    ∀ p ∈ (runMarks calls).2, p.1 ∈ (runMarks calls).1 := by
  have main : ∀ (l : List (Json × Option Message)) (s : List Json)
      (t : List (Json × Message)), SeenInv s t →
      SeenInv (l.foldl (fun ss c => _mark_seen ss.1 ss.2 c.1 c.2) (s, t)).1
              (l.foldl (fun ss c => _mark_seen ss.1 ss.2 c.1 c.2) (s, t)).2 := by
    intro l
    induction l with
    | nil => exact fun s t h => h
    | cons c rest ih =>
      intro s t h
      simp only [List.foldl_cons]
      have step := mark_seen_preserves s t c.1 c.2 h
      exact ih _ _ step
  have base : SeenInv [] [] := by
    refine ⟨by simp [SEEN_SET_MAX], ?_, List.nodup_nil⟩
    intro p hp
    cases hp
  have := main calls [] [] base
  exact ⟨this.1, this.2.1⟩

/-- Python `min(..., key=last_seen)` folded over the table: the result is a
minimum, and it is the *first* entry attaining its `last_seen` value. -/
theorem oldest_foldl_spec (rs : List (Json × PeerInfo)) :
    ∀ b : Json × PeerInfo,
      (∀ q ∈ rs,
        (rs.foldl (fun best q => if q.2.last_seen < best.2.last_seen then q else best) b).2.last_seen
          ≤ q.2.last_seen) ∧
      (rs.foldl (fun best q => if q.2.last_seen < best.2.last_seen then q else best) b).2.last_seen
        ≤ b.2.last_seen ∧
      List.find?
        (fun q => q.2.last_seen ==
          (rs.foldl (fun best q => if q.2.last_seen < best.2.last_seen then q else best) b).2.last_seen)
        (b :: rs)
        = some (rs.foldl (fun best q => if q.2.last_seen < best.2.last_seen then q else best) b) := by
  induction rs with
  | nil =>
    intro b
    simp only [List.foldl_nil]
    refine ⟨?_, le_refl _, ?_⟩
    · intro q hq
      cases hq
    · exact List.find?_cons_of_pos _ (beq_self_eq_true _)
  | cons q rs ih =>
    intro b
    simp only [List.foldl_cons]
    by_cases hlt : q.2.last_seen < b.2.last_seen
    · rw [if_pos hlt]
      obtain ⟨hrs, hb', hfind⟩ := ih q
      generalize hg : List.foldl
        (fun best q => if q.2.last_seen < best.2.last_seen then q else best) q rs = c
        at hrs hb' hfind ⊢
      refine ⟨?_, le_of_lt (lt_of_le_of_lt hb' hlt), ?_⟩
      · intro r hr
        rcases List.mem_cons.mp hr with rfl | hr'
        · exact hb'
        · exact hrs r hr'
      · have hbp : ¬ ((fun r : Json × PeerInfo => r.2.last_seen == c.2.last_seen) b = true) := by
          simp only [beq_iff_eq]
          omega
        have step : List.find? (fun r : Json × PeerInfo => r.2.last_seen == c.2.last_seen) (b :: q :: rs)
            = List.find? (fun r : Json × PeerInfo => r.2.last_seen == c.2.last_seen) (q :: rs) :=
          List.find?_cons_of_neg _ hbp
        rw [step]
        exact hfind
    · rw [if_neg hlt]
      obtain ⟨hrs, hb', hfind⟩ := ih b
      generalize hg : List.foldl
        (fun best q => if q.2.last_seen < best.2.last_seen then q else best) b rs = c
        at hrs hb' hfind ⊢
      have hbq : b.2.last_seen ≤ q.2.last_seen := le_of_not_lt hlt
      refine ⟨?_, hb', ?_⟩
      · intro r hr
        rcases List.mem_cons.mp hr with rfl | hr'
        · exact le_trans hb' hbq
        · exact hrs r hr'
      · by_cases hhead : ((fun r : Json × PeerInfo => r.2.last_seen == c.2.last_seen) b = true)
        · have step1 : List.find? (fun r : Json × PeerInfo => r.2.last_seen == c.2.last_seen) (b :: rs)
              = some b := List.find?_cons_of_pos _ hhead
          rw [step1] at hfind
          have hcb := Option.some.inj hfind
          have step2 : List.find? (fun r : Json × PeerInfo => r.2.last_seen == c.2.last_seen)
              (b :: q :: rs) = some b := List.find?_cons_of_pos _ hhead
          rw [step2, hcb]
        · have step1 : List.find? (fun r : Json × PeerInfo => r.2.last_seen == c.2.last_seen) (b :: rs)
              = List.find? (fun r : Json × PeerInfo => r.2.last_seen == c.2.last_seen) rs :=
            List.find?_cons_of_neg _ hhead
          rw [step1] at hfind
          have hlt' : c.2.last_seen < b.2.last_seen := by
            rcases lt_or_eq_of_le hb' with h | h
            · exact h
            · exact absurd (by rw [h]; exact beq_self_eq_true _) hhead
          have hqp : ¬ ((fun r : Json × PeerInfo => r.2.last_seen == c.2.last_seen) q = true) := by
            simp only [beq_iff_eq]
            omega
          have step2 : List.find? (fun r : Json × PeerInfo => r.2.last_seen == c.2.last_seen)
              (b :: q :: rs)
              = List.find? (fun r : Json × PeerInfo => r.2.last_seen == c.2.last_seen) (q :: rs) :=
            List.find?_cons_of_neg _ hhead
          have step3 : List.find? (fun r : Json × PeerInfo => r.2.last_seen == c.2.last_seen)
              (q :: rs)
              = List.find? (fun r : Json × PeerInfo => r.2.last_seen == c.2.last_seen) rs :=
            List.find?_cons_of_neg _ hqp
          rw [step2, step3]
          exact hfind

/-- C9 (amended: ties among smallest last-seen entries are broken by
earliest insertion order — Python `min` keeps the first minimum in dict
iteration order — not by lexicographically smallest address): when touch
inserts a new address into a table at capacity, the evicted entry has the
smallest last-seen, and is the first-inserted entry attaining it. -/
theorem C9_eviction_tiebreak (cfg : GossipConfig) (peers : List (Json × PeerInfo))
    (nid addr : Json) (now : Nat)
    (hns : (addr == Json.str cfg.self_addr) = false)
    (hnew : (peers.find? (fun p => p.1 == addr)).isSome = false)
    (hcap : peers.length ≥ cfg.peer_limit)
    (hne : peers ≠ []) :
    ∃ c, _oldest_peer peers = some c ∧
      _add_peer cfg peers nid addr now
        = peers.eraseP (fun q => q.1 == c.1) ++ [(addr, ⟨nid, addr, now⟩)] ∧
      (∀ q ∈ peers, c.2.last_seen ≤ q.2.last_seen) ∧
      peers.find? (fun q => q.2.last_seen == c.2.last_seen) = some c := by
  cases peers with
  | nil => exact absurd rfl hne
  | cons p rest =>
    obtain ⟨hmin, hminb, hfind⟩ := oldest_foldl_spec rest p
    refine ⟨_, rfl, ?_, ?_, hfind⟩
    · unfold _add_peer
      rw [hns]
      rw [if_neg Bool.false_ne_true]
      rw [hnew]
      rw [if_neg Bool.false_ne_true]
      rw [if_pos hcap]
      rfl
    · intro q hq
      rcases List.mem_cons.mp hq with rfl | hq'
      · exact hminb
      · exact hmin q hq'

/-- Counterexample to C9 as stated: entries `"b"` then `"a"` share the
minimal last-seen; inserting `"c"` at capacity evicts `"b"` (the
first-inserted), not the lexicographically smallest address `"a"`. -/
theorem C9_eviction_tiebreak_counterexample :
    _add_peer ⟨"127.0.0.1:8000", 3, 2, 0⟩
        [(.str "b", ⟨.str "nb", .str "b", 5⟩), (.str "a", ⟨.str "na", .str "a", 5⟩)]
        (.str "nc") (.str "c") 9
      = [(.str "a", ⟨.str "na", .str "a", 5⟩), (.str "c", ⟨.str "nc", .str "c", 9⟩)] := by
  decide

/-- Witness for C9 at the same concrete table. -/
theorem C9_eviction_tiebreak_witness :
    ((Json.str "c" == Json.str "127.0.0.1:8000") = false) ∧
    (([(Json.str "b", (⟨.str "nb", .str "b", 5⟩ : PeerInfo)),
       (Json.str "a", ⟨.str "na", .str "a", 5⟩)].find? (fun p => p.1 == Json.str "c")).isSome
      = false) ∧
    (∃ c, _oldest_peer [(Json.str "b", ⟨.str "nb", .str "b", 5⟩),
                        (Json.str "a", ⟨.str "na", .str "a", 5⟩)] = some c ∧
      _add_peer ⟨"127.0.0.1:8000", 3, 2, 0⟩
          [(.str "b", ⟨.str "nb", .str "b", 5⟩), (.str "a", ⟨.str "na", .str "a", 5⟩)]
          (.str "nc") (.str "c") 9
        = [(Json.str "b", (⟨.str "nb", .str "b", 5⟩ : PeerInfo)),
           (Json.str "a", ⟨.str "na", .str "a", 5⟩)].eraseP (fun q => q.1 == c.1)
            ++ [(.str "c", ⟨.str "nc", .str "c", 9⟩)] ∧
      (∀ q ∈ [(Json.str "b", (⟨.str "nb", .str "b", 5⟩ : PeerInfo)),
              (Json.str "a", ⟨.str "na", .str "a", 5⟩)], c.2.last_seen ≤ q.2.last_seen) ∧
      [(Json.str "b", (⟨.str "nb", .str "b", 5⟩ : PeerInfo)),
       (Json.str "a", ⟨.str "na", .str "a", 5⟩)].find?
          (fun q => q.2.last_seen == c.2.last_seen) = some c) :=
  ⟨by decide, by decide,
   C9_eviction_tiebreak ⟨"127.0.0.1:8000", 3, 2, 0⟩
     [(.str "b", ⟨.str "nb", .str "b", 5⟩), (.str "a", ⟨.str "na", .str "a", 5⟩)]
     (.str "nc") (.str "c") 9 (by decide) (by decide) (by decide) (by simp)⟩

/-- C6 (amended: the inbound `origin_timestamp_ms` must be truthy and the
inbound `msg_id` non-falsy — `Message.gossip` replaces a falsy
`origin_timestamp_ms` by the current clock via `origin_timestamp_ms or
int(time.time() * 1000)` and a falsy `msg_id` by a fresh uuid via
`msg_id or uuid.uuid4().hex`, see the counterexample): handling a GOSSIP
envelope with `ttl - 1 > 0` emits to at most `fanout` targets, none of
which is the inbound sender's address, and every emitted envelope keeps
the inbound `msg_id`, `topic`, `data`, `origin_id` and
`origin_timestamp_ms` (the `payload.get` values, i.e. the carried values
when the payload carries them), with sender identity and address set to
the forwarding node's own and ttl decremented by one. -/
theorem C6_forward_contract (cfg : GossipConfig) (st : NodeState) (msg : Message)
    (sample : List Json → Nat → List Json) (now : Nat) (fresh : Nat → String) (t : Int)
    (hsample : ∀ l k, k ≤ l.length → ((sample l k).length = k ∧ ∀ x ∈ sample l k, x ∈ l))
    (hseen : st.seen.contains msg.msg_id = false)
    (httl : msg.ttl = .num t)
    (hpos : 0 < t - 1)
    (hmid : msg.msg_id.truthy = true)
    (hots : (msg.payload.pget "origin_timestamp_ms" .null).truthy = true) :
    (_handle_gossip cfg st sample msg now fresh).2.length ≤ cfg.fanout ∧
    ∀ p ∈ (_handle_gossip cfg st sample msg now fresh).2,
      p.1 ≠ msg.sender_addr ∧
      p.2.msg_id = msg.msg_id ∧
      p.2.sender_id = .str st.node_id ∧
      p.2.sender_addr = .str cfg.self_addr ∧
      p.2.ttl = .num (t - 1) ∧
      p.2.payload = .obj [("topic", msg.payload.pget "topic" (.str "news")),
                          ("data", msg.payload.pget "data" (.str "")),
                          ("origin_id", msg.payload.pget "origin_id" (.str st.node_id)),
                          ("origin_timestamp_ms", msg.payload.pget "origin_timestamp_ms" .null)] := by
  have hred : (_handle_gossip cfg st sample msg now fresh).2
      = _forward_gossip cfg
          { st with peers := _add_peer cfg st.peers msg.sender_id msg.sender_addr now,
                    seen := (_mark_seen st.seen st.message_store msg.msg_id (some msg)).1,
                    message_store := (_mark_seen st.seen st.message_store msg.msg_id (some msg)).2 }
          sample msg (t - 1) fresh now := by
    unfold _handle_gossip
    rw [hseen, if_neg Bool.false_ne_true]
    simp only [httl]
    rw [if_neg (by omega : ¬ (t - 1 ≤ 0))]
  rw [hred]
  simp only [_forward_gossip]
  set st' : NodeState :=
    { st with peers := _add_peer cfg st.peers msg.sender_id msg.sender_addr now,
              seen := (_mark_seen st.seen st.message_store msg.msg_id (some msg)).1,
              message_store := (_mark_seen st.seen st.message_store msg.msg_id (some msg)).2 }
    with hst'
  by_cases hk : min cfg.fanout
      ((st'.peers.map (fun p => p.1)).filter (fun a => a != msg.sender_addr)).length = 0
  · rw [if_pos (by simp [hk])]
    exact ⟨Nat.zero_le _, by intro p hp; cases hp⟩
  · rw [if_neg (by simpa using hk)]
    have hkle : min cfg.fanout
        ((st'.peers.map (fun p => p.1)).filter (fun a => a != msg.sender_addr)).length
        ≤ ((st'.peers.map (fun p => p.1)).filter (fun a => a != msg.sender_addr)).length :=
      Nat.min_le_right _ _
    obtain ⟨hlen, hsub⟩ := hsample _ _ hkle
    constructor
    · rw [List.length_map, List.enum_length, hlen]
      exact Nat.min_le_left _ _
    · intro p hp
      obtain ⟨⟨i, tgt⟩, hmem, rfl⟩ := List.mem_map.mp hp
      have htgt : tgt ∈ sample
          ((st'.peers.map (fun p => p.1)).filter (fun a => a != msg.sender_addr))
          (min cfg.fanout
            ((st'.peers.map (fun p => p.1)).filter (fun a => a != msg.sender_addr)).length) := by
        rw [List.mk_mem_enum_iff_getElem?] at hmem
        exact List.getElem?_mem hmem
      have htgtc := hsub tgt htgt
      have hne : tgt ≠ msg.sender_addr := by
        have hmf := List.mem_filter.mp htgtc
        simpa using hmf.2
      refine ⟨hne, ?_, rfl, rfl, rfl, ?_⟩
      · show (if msg.msg_id.truthy = true then msg.msg_id else .str (fresh i)) = msg.msg_id
        rw [if_pos hmid]
      · show Json.obj [("topic", msg.payload.pget "topic" (.str "news")),
                       ("data", msg.payload.pget "data" (.str "")),
                       ("origin_id", msg.payload.pget "origin_id" (.str st'.node_id)),
                       ("origin_timestamp_ms",
                        if (msg.payload.pget "origin_timestamp_ms" .null).truthy = true
                        then msg.payload.pget "origin_timestamp_ms" .null else .num now)]
            = _
        rw [if_pos hots]

/-- Counterexample to C6 as stated: a payload that carries
`origin_timestamp_ms` with the JSON value `0` (falsy in Python) is *not*
preserved — the forwarded copy carries the forwarding wall clock (here
77). -/
theorem C6_forward_contract_counterexample :
    C6x.gmsg.payload.pget "origin_timestamp_ms" .null = .num 0 ∧
    ((_handle_gossip C6x.cfg C6x.st C6x.takeSample C6x.gmsg 77 (fun _ => "u")).2.map
        (fun p => p.2.payload.pget "origin_timestamp_ms" .null)) = [.num 77] := by
  decide

/-- Witness for C6 at a well-formed envelope (truthy timestamp, ttl 3). -/
theorem C6_forward_contract_witness :
    C6x.st.seen.contains C6x.gok.msg_id = false ∧
    C6x.gok.ttl = .num 3 ∧
    ((0 : Int) < 3 - 1) ∧
    ((_handle_gossip C6x.cfg C6x.st C6x.takeSample C6x.gok 9 (fun _ => "u")).2.length
        ≤ C6x.cfg.fanout ∧
     ∀ p ∈ (_handle_gossip C6x.cfg C6x.st C6x.takeSample C6x.gok 9 (fun _ => "u")).2,
       p.1 ≠ C6x.gok.sender_addr ∧
       p.2.msg_id = C6x.gok.msg_id ∧
       p.2.sender_id = .str C6x.st.node_id ∧
       p.2.sender_addr = .str C6x.cfg.self_addr ∧
       p.2.ttl = .num (3 - 1) ∧
       p.2.payload = .obj [("topic", C6x.gok.payload.pget "topic" (.str "news")),
                           ("data", C6x.gok.payload.pget "data" (.str "")),
                           ("origin_id", C6x.gok.payload.pget "origin_id" (.str C6x.st.node_id)),
                           ("origin_timestamp_ms",
                            C6x.gok.payload.pget "origin_timestamp_ms" .null)]) :=
  ⟨by decide, by decide, by decide,
   C6_forward_contract C6x.cfg C6x.st C6x.gok C6x.takeSample 9 (fun _ => "u") 3
     (by
       intro l k hk
       constructor
       · show (l.take k).length = k
         rw [List.length_take]
         omega
       · intro x hx
         exact List.mem_of_mem_take hx)
     (by decide) (by decide) (by decide) (by decide) (by decide)⟩

/-- A value not in a list makes `contains` false. -/
theorem contains_eq_false_of_not_mem {l : List Json} {a : Json} (h : a ∉ l) :
    l.contains a = false := by
  cases hc : l.contains a with
  | false => rfl
  | true => exact absurd (List.elem_iff.mp hc) h

/-- A GOSSIP whose id is already seen is dropped without any state change. -/
theorem handle_gossip_of_seen (cfg : GossipConfig) (st : NodeState)
    (sample : List Json → Nat → List Json) (msg : Message) (now : Nat) (fresh : Nat → String)
    (h : st.seen.contains msg.msg_id = true) :
    _handle_gossip cfg st sample msg now fresh = (st, []) := by
  unfold _handle_gossip
  rw [h, if_pos rfl]

/-- A GOSSIP with a fresh id, received while the seen set is below
capacity, appends its id to the seen set (no eviction). -/
theorem handle_gossip_seen_of_new (cfg : GossipConfig) (st : NodeState)
    (sample : List Json → Nat → List Json) (msg : Message) (now : Nat) (fresh : Nat → String)
    (h : st.seen.contains msg.msg_id = false)
    (hlen : st.seen.length < SEEN_SET_MAX) :
    (_handle_gossip cfg st sample msg now fresh).1.seen = st.seen ++ [msg.msg_id] := by
  have hmark : (_mark_seen st.seen st.message_store msg.msg_id (some msg)).1
      = st.seen ++ [msg.msg_id] := by
    unfold _mark_seen
    rw [h, if_neg Bool.false_ne_true]
    unfold _evict_seen
    rw [if_neg (by rw [List.length_append]; simp only [List.length_cons, List.length_nil]; omega)]
  unfold _handle_gossip
  rw [h, if_neg Bool.false_ne_true]
  split
  · split
    · exact hmark
    · exact hmark
  · exact hmark

/-- One step of `fwdCount`. -/
theorem fwdCount_cons (m : Message) (ms : List Message) (o : List (Json × Message))
    (outs : List (List (Json × Message))) (id : Json) :
    fwdCount (m :: ms) (o :: outs) id
      = (if (m.msg_id == id && !o.isEmpty) = true then 1 else 0) + fwdCount ms outs id := by
  unfold fwdCount
  rw [List.zip_cons_cons]
  by_cases hp : (m.msg_id == id && !o.isEmpty) = true
  · rw [List.filter_cons_of_pos (by exact hp), if_pos hp]
    simp [Nat.add_comm]
  · rw [List.filter_cons_of_neg (by exact hp), if_neg hp]
    simp

/-- Along any run in which the seen set cannot overflow, each inbound
message id triggers at most one forwarding event — and none at all if it
is already seen. -/
theorem gossipRun_fwd_bound (cfg : GossipConfig)
    (sample : Nat → List Json → Nat → List Json) (fresh : Nat → Nat → String)
    (now : Nat → Nat) (msgs : List Message) :
    ∀ (i : Nat) (st : NodeState) (id : Json),
      st.seen.length + msgs.length ≤ SEEN_SET_MAX →
      (fwdCount msgs (gossipRun cfg sample fresh now i st msgs).2 id ≤ 1 ∧
       (id ∈ st.seen → fwdCount msgs (gossipRun cfg sample fresh now i st msgs).2 id = 0)) := by
  induction msgs with
  | nil =>
    intro i st id hcap
    exact ⟨Nat.zero_le 1, fun _ => rfl⟩
  | cons m ms ih =>
    intro i st id hcap
    have hms : ms.length + 1 = (m :: ms).length := rfl
    simp only [gossipRun]
    by_cases hc : st.seen.contains m.msg_id = true
    · rw [handle_gossip_of_seen cfg st (sample i) m (now i) (fresh i) hc]
      rw [fwdCount_cons]
      have hcap' : st.seen.length + ms.length ≤ SEEN_SET_MAX := by
        simp only [List.length_cons] at hcap
        omega
      obtain ⟨ihle, ihzero⟩ := ih (i + 1) st id hcap'
      have hhead : ((m.msg_id == id && !(([] : List (Json × Message))).isEmpty)) = false := by
        simp
      rw [hhead]
      simp only [Bool.false_eq_true, if_false, Nat.zero_add]
      exact ⟨ihle, ihzero⟩
    · have hc' : st.seen.contains m.msg_id = false := Bool.eq_false_iff.mpr hc
      have hlen : st.seen.length < SEEN_SET_MAX := by
        simp only [List.length_cons] at hcap
        omega
      have hseen' := handle_gossip_seen_of_new cfg st (sample i) m (now i) (fresh i) hc' hlen
      have hcap1 : (_handle_gossip cfg st (sample i) m (now i) (fresh i)).1.seen.length
          + ms.length ≤ SEEN_SET_MAX := by
        rw [hseen', List.length_append]
        simp only [List.length_cons, List.length_nil] at hcap ⊢
        omega
      obtain ⟨ihle, ihzero⟩ :=
        ih (i + 1) (_handle_gossip cfg st (sample i) m (now i) (fresh i)).1 id hcap1
      rw [fwdCount_cons]
      by_cases hid : (m.msg_id == id) = true
      · have hideq : m.msg_id = id := beq_iff_eq.mp hid
        have hmem : id ∈ (_handle_gossip cfg st (sample i) m (now i) (fresh i)).1.seen := by
          rw [hseen', ← hideq]
          exact List.mem_append.mpr (Or.inr (List.mem_singleton.mpr rfl))
        have htail := ihzero hmem
        constructor
        · rw [htail]
          by_cases ho : (m.msg_id == id && !(_handle_gossip cfg st (sample i) m
              (now i) (fresh i)).2.isEmpty) = true
          · rw [if_pos ho]
          · rw [if_neg ho]
            omega
        · intro hmem0
          exfalso
          apply hc
          rw [hideq]
          exact List.elem_iff.mpr hmem0
      · have hhead : (m.msg_id == id && !(_handle_gossip cfg st (sample i) m
            (now i) (fresh i)).2.isEmpty) = false := by
          rw [Bool.eq_false_iff.mpr hid]
          simp
        rw [hhead]
        simp only [Bool.false_eq_true, if_false, Nat.zero_add]
        constructor
        · exact ihle
        · intro hmem0
          apply ihzero
          rw [hseen']
          exact List.mem_append.mpr (Or.inl hmem0)

/-- C5 (amended: the bound holds as long as the node handles at most
`SEEN_SET_MAX` ids in total, so the bounded seen set never evicts; once
more than `SEEN_SET_MAX` fresh ids pass through, an evicted id can be
forwarded a second time, see the counterexample): for any GOSSIP message
id, a run of inbound GOSSIP events makes the node forward that id at most
once. -/
theorem C5_forward_at_most_once (cfg : GossipConfig)
    (sample : Nat → List Json → Nat → List Json) (fresh : Nat → Nat → String)
    (now : Nat → Nat) (st0 : NodeState) (msgs : List Message) (id : Json)
    (hcap : st0.seen.length + msgs.length ≤ SEEN_SET_MAX) :
    fwdCount msgs (gossipRun cfg sample fresh now 0 st0 msgs).2 id ≤ 1 :=
  (gossipRun_fwd_bound cfg sample fresh now msgs 0 st0 id hcap).1

/-- Witness for C5: the same envelope delivered twice in a short run is
forwarded only once. -/
theorem C5_forward_at_most_once_witness :
    C5x.st0.seen.length + [C5x.gX, C5x.gX].length ≤ SEEN_SET_MAX ∧
    fwdCount [C5x.gX, C5x.gX]
      (gossipRun C5x.cfg C5x.sampleC C5x.freshC C5x.nowC 0 C5x.st0 [C5x.gX, C5x.gX]).2
      C5x.xId ≤ 1 :=
  ⟨by decide,
   C5_forward_at_most_once C5x.cfg C5x.sampleC C5x.freshC C5x.nowC C5x.st0
     [C5x.gX, C5x.gX] C5x.xId (by decide)⟩

/-- `gossipRun` splits over list append. -/
theorem gossipRun_append (cfg : GossipConfig)
    (sample : Nat → List Json → Nat → List Json) (fresh : Nat → Nat → String)
    (now : Nat → Nat) (xs ys : List Message) :
    ∀ (i : Nat) (st : NodeState),
      gossipRun cfg sample fresh now i st (xs ++ ys)
        = ((gossipRun cfg sample fresh now (i + xs.length)
              (gossipRun cfg sample fresh now i st xs).1 ys).1,
           (gossipRun cfg sample fresh now i st xs).2
             ++ (gossipRun cfg sample fresh now (i + xs.length)
                  (gossipRun cfg sample fresh now i st xs).1 ys).2) := by
  induction xs with
  | nil =>
    intro i st
    simp [gossipRun]
  | cons x xs ih =>
    intro i st
    simp only [List.cons_append, gossipRun, List.append_eq]
    rw [ih (i + 1) (_handle_gossip cfg st (sample i) x (now i) (fresh i)).1]
    have hidx : i + (x :: xs).length = i + 1 + xs.length := by
      simp only [List.length_cons]
      omega
    rw [hidx]

/-- `nums (j+1)` extends `nums j`. -/
theorem C5x_nums_succ (j : Nat) : C5x.nums (j + 1) = C5x.nums j ++ [.num j] := by
  unfold C5x.nums
  rw [List.range_succ, List.map_append]
  rfl

/-- `pairs (j+1)` extends `pairs j`. -/
theorem C5x_pairs_succ (j : Nat) :
    C5x.pairs (j + 1) = C5x.pairs j ++ [((.num j : Json), C5x.filler j)] := by
  unfold C5x.pairs
  rw [List.range_succ, List.map_append]
  rfl

/-- `fillers (j+1)` extends `fillers j`. -/
theorem C5x_fillers_succ (j : Nat) :
    C5x.fillers (j + 1) = C5x.fillers j ++ [C5x.filler j] := by
  unfold C5x.fillers
  rw [List.range_succ, List.map_append]
  rfl

theorem C5x_nums_length (j : Nat) : (C5x.nums j).length = j := by
  unfold C5x.nums
  rw [List.length_map, List.length_range]

theorem C5x_fillers_length (j : Nat) : (C5x.fillers j).length = j := by
  unfold C5x.fillers
  rw [List.length_map, List.length_range]

/-- The duplicated string id is never one of the numeric filler ids. -/
theorem C5x_xId_not_mem_nums (n : Nat) : C5x.xId ∉ C5x.nums n := by
  intro h
  unfold C5x.nums at h
  obtain ⟨i, _, hi⟩ := List.mem_map.mp h
  cases hi

/-- Filler `j`'s id is fresh relative to the ids of fillers `0..j-1`. -/
theorem C5x_num_self_not_mem_nums (j : Nat) : (Json.num j) ∉ C5x.nums j := by
  intro h
  unfold C5x.nums at h
  obtain ⟨i, hir, hi⟩ := List.mem_map.mp h
  have : (i : Int) = (j : Int) := Json.num.inj hi
  have hij : i = j := by exact_mod_cast this
  have := List.mem_range.mp hir
  omega

/-- Field-wise equality of node states. -/
theorem NodeState.ext' (a b : NodeState) (h1 : a.node_id = b.node_id)
    (h2 : a.peers = b.peers) (h3 : a.seen = b.seen)
    (h4 : a.message_store = b.message_store) : a = b := by
  cases a
  cases b
  simp_all

/-- Marking a fresh id while strictly below capacity appends to both
containers. -/
theorem mark_seen_new_no_evict (s : List Json) (t : List (Json × Message))
    (mid : Json) (msg : Message)
    (hc : s.contains mid = false)
    (hf : (t.find? (fun q => q.1 == mid)).isSome = false)
    (hlen : s.length + 1 ≤ SEEN_SET_MAX) :
    _mark_seen s t mid (some msg) = (s ++ [mid], t ++ [(mid, msg)]) := by
  simp only [_mark_seen, hc, hf, Bool.false_eq_true, if_false]
  unfold _evict_seen
  rw [if_neg (by rw [List.length_append]; simp only [List.length_cons, List.length_nil]; omega)]

/-- Marking a fresh id at exactly full capacity evicts the oldest seen id
and its stored twin. -/
theorem mark_seen_new_evict_one (o : Json) (rest : List Json)
    (t : List (Json × Message)) (mid : Json) (msg : Message)
    (hc : (o :: rest).contains mid = false)
    (hf : (t.find? (fun q => q.1 == mid)).isSome = false)
    (hlen : (o :: rest).length = SEEN_SET_MAX) :
    _mark_seen (o :: rest) t mid (some msg)
      = (rest ++ [mid], (t ++ [(mid, msg)]).eraseP (fun q => q.1 == o)) := by
  have hlen' : rest.length + 1 = SEEN_SET_MAX := by
    simp only [List.length_cons] at hlen
    exact hlen
  simp only [_mark_seen, hc, hf, Bool.false_eq_true, if_false]
  rw [List.cons_append]
  unfold _evict_seen
  rw [if_pos (by simp only [List.length_cons, List.length_append, List.length_nil]; omega)]
  unfold _evict_seen
  rw [if_neg (by simp only [List.length_append, List.length_cons, List.length_nil]; omega)]

/-- The handler never changes the node id. -/
theorem handle_gossip_node_id (cfg : GossipConfig) (st : NodeState)
    (sample : List Json → Nat → List Json) (msg : Message) (now : Nat) (fresh : Nat → String) :
    (_handle_gossip cfg st sample msg now fresh).1.node_id = st.node_id := by
  unfold _handle_gossip
  by_cases h : st.seen.contains msg.msg_id = true
  · rw [h, if_pos rfl]
  · rw [Bool.eq_false_iff.mpr h, if_neg Bool.false_ne_true]
    split
    · split
      · rfl
      · rfl
    · rfl

/-- On a fresh id the handler touches the sender in the peer table. -/
theorem handle_gossip_peers (cfg : GossipConfig) (st : NodeState)
    (sample : List Json → Nat → List Json) (msg : Message) (now : Nat) (fresh : Nat → String)
    (h : st.seen.contains msg.msg_id = false) :
    (_handle_gossip cfg st sample msg now fresh).1.peers
      = _add_peer cfg st.peers msg.sender_id msg.sender_addr now := by
  unfold _handle_gossip
  rw [h, if_neg Bool.false_ne_true]
  split
  · split
    · rfl
    · rfl
  · rfl

/-- On a fresh id the handler stores the envelope via `_mark_seen`. -/
theorem handle_gossip_store (cfg : GossipConfig) (st : NodeState)
    (sample : List Json → Nat → List Json) (msg : Message) (now : Nat) (fresh : Nat → String)
    (h : st.seen.contains msg.msg_id = false) :
    (_handle_gossip cfg st sample msg now fresh).1.message_store
      = (_mark_seen st.seen st.message_store msg.msg_id (some msg)).2 := by
  unfold _handle_gossip
  rw [h, if_neg Bool.false_ne_true]
  split
  · split
    · rfl
    · rfl
  · rfl

/-- The full seen set after handling a fresh id (including eviction). -/
theorem handle_gossip_seen (cfg : GossipConfig) (st : NodeState)
    (sample : List Json → Nat → List Json) (msg : Message) (now : Nat) (fresh : Nat → String)
    (h : st.seen.contains msg.msg_id = false) :
    (_handle_gossip cfg st sample msg now fresh).1.seen
      = (_mark_seen st.seen st.message_store msg.msg_id (some msg)).1 := by
  unfold _handle_gossip
  rw [h, if_neg Bool.false_ne_true]
  split
  · split
    · rfl
    · rfl
  · rfl

/-- An exhausted hop budget sends nothing. -/
theorem handle_gossip_out_spent (cfg : GossipConfig) (st : NodeState)
    (sample : List Json → Nat → List Json) (msg : Message) (now : Nat) (fresh : Nat → String)
    (t : Int) (httl : msg.ttl = .num t) (hle : t - 1 ≤ 0) :
    (_handle_gossip cfg st sample msg now fresh).2 = [] := by
  unfold _handle_gossip
  by_cases h : st.seen.contains msg.msg_id = true
  · rw [h, if_pos rfl]
  · rw [Bool.eq_false_iff.mpr h, if_neg Bool.false_ne_true]
    simp only [httl]
    rw [if_pos hle]

/-- A live hop budget forwards from the post-touch state. -/
theorem handle_gossip_out_forward (cfg : GossipConfig) (st : NodeState)
    (sample : List Json → Nat → List Json) (msg : Message) (now : Nat) (fresh : Nat → String)
    (t : Int) (h : st.seen.contains msg.msg_id = false)
    (httl : msg.ttl = .num t) (hgt : ¬ t - 1 ≤ 0) :
    (_handle_gossip cfg st sample msg now fresh).2
      = _forward_gossip cfg
          { st with peers := _add_peer cfg st.peers msg.sender_id msg.sender_addr now,
                    seen := (_mark_seen st.seen st.message_store msg.msg_id (some msg)).1,
                    message_store := (_mark_seen st.seen st.message_store msg.msg_id (some msg)).2 }
          sample msg (t - 1) fresh now := by
  unfold _handle_gossip
  rw [h, if_neg Bool.false_ne_true]
  simp only [httl]
  rw [if_neg hgt]

/-- Filler `j`'s id is not yet seen in `stF j`. -/
theorem C5aux_filler_contains (j : Nat) :
    (C5x.stF j).seen.contains (C5x.filler j).msg_id = false := by
  apply contains_eq_false_of_not_mem
  intro h
  rcases List.mem_cons.mp h with h1 | h2
  · exact nomatch h1
  · exact C5x_num_self_not_mem_nums j h2

/-- Filler `j`'s id is not yet stored in `stF j`. -/
theorem C5aux_filler_find (j : Nat) :
    ((C5x.stF j).message_store.find? (fun q => q.1 == (C5x.filler j).msg_id)).isSome = false := by
  have hnone : (C5x.stF j).message_store.find? (fun q => q.1 == (C5x.filler j).msg_id) = none := by
    apply List.find?_eq_none.mpr
    intro x hx
    rcases List.mem_cons.mp hx with h1 | h2
    · rw [h1]
      simp only [beq_iff_eq]
      intro hEq
      exact nomatch hEq
    · unfold C5x.pairs at h2
      obtain ⟨i, hir, hxe⟩ := List.mem_map.mp h2
      rw [← hxe]
      simp only [beq_iff_eq]
      intro hEq
      have hij : (i : Int) = (j : Int) := Json.num.inj hEq
      have : i = j := by exact_mod_cast hij
      have := List.mem_range.mp hir
      omega
  rw [hnone]
  rfl

/-- One filler event below capacity: the seen set and store grow by the
filler, the peer table is only refreshed, nothing is forwarded. -/
theorem C5aux_step_filler (j i : Nat) (hj : j + 2 ≤ SEEN_SET_MAX) :
    _handle_gossip C5x.cfg (C5x.stF j) (C5x.sampleC i) (C5x.filler j) (C5x.nowC i) (C5x.freshC i)
      = (C5x.stF (j + 1), []) := by
  have hc := C5aux_filler_contains j
  have hf := C5aux_filler_find j
  have hsl : (C5x.stF j).seen.length = j + 1 := by
    show (C5x.xId :: C5x.nums j).length = j + 1
    rw [List.length_cons, C5x_nums_length]
  have hmark := mark_seen_new_no_evict (C5x.stF j).seen (C5x.stF j).message_store
      (C5x.filler j).msg_id (C5x.filler j) hc hf (by rw [hsl]; omega)
  have h1 : (_handle_gossip C5x.cfg (C5x.stF j) (C5x.sampleC i) (C5x.filler j)
      (C5x.nowC i) (C5x.freshC i)).1 = C5x.stF (j + 1) := by
    apply NodeState.ext'
    · rw [handle_gossip_node_id]
      rfl
    · rw [handle_gossip_peers _ _ _ _ _ _ hc]
      show _add_peer C5x.cfg C5x.P2 (Json.str "pid") C5x.peerAddr 0 = C5x.P2
      decide
    · rw [handle_gossip_seen _ _ _ _ _ _ hc, hmark]
      show (C5x.xId :: C5x.nums j) ++ [(C5x.filler j).msg_id] = (C5x.stF (j + 1)).seen
      rw [List.cons_append]
      show C5x.xId :: (C5x.nums j ++ [Json.num (j : Int)]) = C5x.xId :: C5x.nums (j + 1)
      rw [C5x_nums_succ]
    · rw [handle_gossip_store _ _ _ _ _ _ hc, hmark]
      show ((C5x.xId, C5x.gX) :: C5x.pairs j) ++ [((C5x.filler j).msg_id, C5x.filler j)]
          = (C5x.stF (j + 1)).message_store
      rw [List.cons_append]
      show (C5x.xId, C5x.gX) :: (C5x.pairs j ++ [((Json.num (j : Int)), C5x.filler j)])
          = (C5x.xId, C5x.gX) :: C5x.pairs (j + 1)
      rw [C5x_pairs_succ]
  have h2 : (_handle_gossip C5x.cfg (C5x.stF j) (C5x.sampleC i) (C5x.filler j)
      (C5x.nowC i) (C5x.freshC i)).2 = [] :=
    handle_gossip_out_spent _ _ _ _ _ _ 1 rfl (by omega)
  rw [← h1, ← h2]

/-- The filler event that fills the seen set to capacity evicts `xId` and
its stored twin. -/
theorem C5aux_step_filler_last (j i : Nat) (hj : j + 1 = SEEN_SET_MAX) :
    _handle_gossip C5x.cfg (C5x.stF j) (C5x.sampleC i) (C5x.filler j)
        (C5x.nowC i) (C5x.freshC i)
      = (⟨"n0", C5x.P2, C5x.nums (j + 1), C5x.pairs (j + 1)⟩, []) := by
  have hc := C5aux_filler_contains j
  have hf := C5aux_filler_find j
  have hmark := mark_seen_new_evict_one C5x.xId (C5x.nums j)
      ((C5x.stF j).message_store) (C5x.filler j).msg_id (C5x.filler j) hc hf
      (by rw [List.length_cons, C5x_nums_length]; omega)
  have hmark' : _mark_seen (C5x.stF j).seen (C5x.stF j).message_store
      (C5x.filler j).msg_id (some (C5x.filler j))
      = (C5x.nums j ++ [(C5x.filler j).msg_id],
         List.eraseP (fun q => q.1 == C5x.xId)
           ((C5x.stF j).message_store ++ [((C5x.filler j).msg_id, C5x.filler j)])) :=
    hmark
  have h1 : (_handle_gossip C5x.cfg (C5x.stF j) (C5x.sampleC i) (C5x.filler j)
      (C5x.nowC i) (C5x.freshC i)).1
      = ⟨"n0", C5x.P2, C5x.nums (j + 1), C5x.pairs (j + 1)⟩ := by
    apply NodeState.ext'
    · rw [handle_gossip_node_id]
      rfl
    · rw [handle_gossip_peers _ _ _ _ _ _ hc]
      show _add_peer C5x.cfg C5x.P2 (Json.str "pid") C5x.peerAddr 0 = C5x.P2
      decide
    · rw [handle_gossip_seen _ _ _ _ _ _ hc, hmark']
      show C5x.nums j ++ [Json.num (j : Int)] = C5x.nums (j + 1)
      rw [C5x_nums_succ]
    · rw [handle_gossip_store _ _ _ _ _ _ hc, hmark']
      have hstep : (C5x.stF j).message_store ++ [((C5x.filler j).msg_id, C5x.filler j)]
          = (C5x.xId, C5x.gX) :: (C5x.pairs j ++ [((C5x.filler j).msg_id, C5x.filler j)]) := by
        rw [show (C5x.stF j).message_store = (C5x.xId, C5x.gX) :: C5x.pairs j from rfl]
        rw [List.cons_append]
      rw [hstep]
      have herase : List.eraseP (fun q => q.1 == C5x.xId)
          ((C5x.xId, C5x.gX) :: (C5x.pairs j ++ [((C5x.filler j).msg_id, C5x.filler j)]))
          = C5x.pairs j ++ [((C5x.filler j).msg_id, C5x.filler j)] := by
        rw [List.eraseP_cons]
        rw [show (((C5x.xId, C5x.gX) : Json × Message).1 == C5x.xId) = true
            from beq_self_eq_true C5x.xId]
        rfl
      rw [herase]
      show C5x.pairs j ++ [(Json.num (j : Int), C5x.filler j)] = C5x.pairs (j + 1)
      rw [C5x_pairs_succ]
  have h2 : (_handle_gossip C5x.cfg (C5x.stF j) (C5x.sampleC i) (C5x.filler j)
      (C5x.nowC i) (C5x.freshC i)).2 = [] :=
    handle_gossip_out_spent _ _ _ _ _ _ 1 rfl (by omega)
  rw [← h1, ← h2]

/-- A one-event run is one handler call. -/
theorem gossipRun_singleton (cfg : GossipConfig)
    (sample : Nat → List Json → Nat → List Json) (fresh : Nat → Nat → String)
    (now : Nat → Nat) (i : Nat) (st : NodeState) (m : Message) :
    gossipRun cfg sample fresh now i st [m]
      = ((_handle_gossip cfg st (sample i) m (now i) (fresh i)).1,
         [(_handle_gossip cfg st (sample i) m (now i) (fresh i)).2]) := rfl

/-- Unfolding one run step without evaluating the remaining event list. -/
theorem gossipRun_cons (cfg : GossipConfig)
    (sample : Nat → List Json → Nat → List Json) (fresh : Nat → Nat → String)
    (now : Nat → Nat) (i : Nat) (st : NodeState) (m : Message) (ms : List Message) :
    gossipRun cfg sample fresh now i st (m :: ms)
      = ((gossipRun cfg sample fresh now (i + 1)
            (_handle_gossip cfg st (sample i) m (now i) (fresh i)).1 ms).1,
         (_handle_gossip cfg st (sample i) m (now i) (fresh i)).2
           :: (gossipRun cfg sample fresh now (i + 1)
                (_handle_gossip cfg st (sample i) m (now i) (fresh i)).1 ms).2) := rfl

/-- Forwarding `gX` from any state whose peer table is `P2` emits at least
one datagram (the single candidate `peerAddr` is necessarily sampled). -/
theorem forward_gossip_isEmpty_p2 (i : Nat) (st : NodeState) (hpe : st.peers = C5x.P2) :
    (_forward_gossip C5x.cfg st (C5x.sampleC i) C5x.gX 1 (C5x.freshC i)
        (C5x.nowC i)).isEmpty = false := by
  unfold _forward_gossip
  rw [hpe]
  rfl

/-- Handling `gX` while the seen set holds only filler ids forwards it. -/
theorem C5aux_step_gX_full (j i : Nat) :
    ((_handle_gossip C5x.cfg ⟨"n0", C5x.P2, C5x.nums j, C5x.pairs j⟩ (C5x.sampleC i)
        C5x.gX (C5x.nowC i) (C5x.freshC i)).2).isEmpty = false := by
  have hc : ((⟨"n0", C5x.P2, C5x.nums j, C5x.pairs j⟩ : NodeState)).seen.contains
      C5x.gX.msg_id = false :=
    contains_eq_false_of_not_mem (C5x_xId_not_mem_nums j)
  rw [handle_gossip_out_forward C5x.cfg ⟨"n0", C5x.P2, C5x.nums j, C5x.pairs j⟩
      (C5x.sampleC i) C5x.gX (C5x.nowC i) (C5x.freshC i) 2 hc rfl (by omega)]
  apply forward_gossip_isEmpty_p2
  show _add_peer C5x.cfg C5x.P2 C5x.gX.sender_id C5x.gX.sender_addr 0 = C5x.P2
  decide

/-- `fwdCount` splits over aligned appends. -/
theorem fwdCount_append (ms1 ms2 : List Message)
    (outs1 outs2 : List (List (Json × Message))) (id : Json)
    (hlen : ms1.length = outs1.length) :
    fwdCount (ms1 ++ ms2) (outs1 ++ outs2) id
      = fwdCount ms1 outs1 id + fwdCount ms2 outs2 id := by
  unfold fwdCount
  rw [List.zip_append hlen, List.filter_append, List.length_append]

/-- Events that sent nothing contribute no forwarding events. -/
theorem fwdCount_nil_outs (ms : List Message) (n : Nat) (id : Json) :
    fwdCount ms (List.replicate n []) id = 0 := by
  unfold fwdCount
  rw [List.filter_eq_nil.mpr]
  · rfl
  · intro p hp
    have hmem := (List.of_mem_zip hp).2
    have hpe : p.2 = [] := List.eq_of_mem_replicate hmem
    rw [hpe]
    simp

/-- The run over the first `j ≤ 9999` fillers: the seen set accumulates
the filler ids behind `xId` and nothing is forwarded. -/
theorem C5aux_filler_run : ∀ (j : Nat), j ≤ 9999 → ∀ (i : Nat),
    gossipRun C5x.cfg C5x.sampleC C5x.freshC C5x.nowC i (C5x.stF 0) (C5x.fillers j)
      = (C5x.stF j, List.replicate j []) := by
  intro j
  induction j with
  | zero =>
    intro _ i
    rfl
  | succ j ih =>
    intro hj i
    have hj' : j ≤ 9999 := Nat.le_of_succ_le hj
    rw [C5x_fillers_succ, gossipRun_append, ih hj' i]
    rw [gossipRun_singleton]
    rw [C5aux_step_filler j (i + (C5x.fillers j).length) (by unfold SEEN_SET_MAX; omega)]
    rw [List.replicate_succ']

/-- The run over all 10000 fillers: the seen set overflows on the last one
and `xId` is forgotten. -/
theorem C5aux_fillers_full (i : Nat) :
    gossipRun C5x.cfg C5x.sampleC C5x.freshC C5x.nowC i (C5x.stF 0) (C5x.fillers 10000)
      = (⟨"n0", C5x.P2, C5x.nums 10000, C5x.pairs 10000⟩, List.replicate 10000 []) := by
  have e1 : C5x.fillers 10000 = C5x.fillers 9999 ++ [C5x.filler 9999] := by
    rw [show (10000 : Nat) = 9999 + 1 from by norm_num, C5x_fillers_succ]
  rw [e1, gossipRun_append, C5aux_filler_run 9999 (by omega) i]
  rw [gossipRun_singleton]
  rw [C5aux_step_filler_last 9999 (i + (C5x.fillers 9999).length) (by decide)]
  rw [show (9999 : Nat) + 1 = 10000 from by norm_num]
  rw [show List.replicate 9999 ([] : List (Json × Message)) ++ [[]]
      = List.replicate 10000 [] from by
    rw [← List.replicate_succ']]

/-- Counterexample to C5 as stated: a node with one known peer receives
`gX` (forwarded once), then 10000 distinct fillers — which evict `gX`'s id
from the bounded seen set — and then `gX` again, which is forwarded a
*second* time: two forwarding events for the same GOSSIP message id in one
execution.  (In both forwarding events the candidate list is a singleton,
so every PRNG seed makes `random.sample` return exactly the realised
targets.) -/
theorem C5_forward_at_most_once_counterexample :
    fwdCount C5x.msgs
      (gossipRun C5x.cfg C5x.sampleC C5x.freshC C5x.nowC 0 C5x.st0 C5x.msgs).2
      C5x.xId = 2 := by
  have h01 : (_handle_gossip C5x.cfg C5x.st0 (C5x.sampleC 0) C5x.gX (C5x.nowC 0)
      (C5x.freshC 0)).1 = C5x.stF 0 := by decide
  have h02 : (_handle_gossip C5x.cfg C5x.st0 (C5x.sampleC 0) C5x.gX (C5x.nowC 0)
      (C5x.freshC 0)).2.isEmpty = false := by decide
  rw [show C5x.msgs = C5x.gX :: (C5x.fillers 10000 ++ [C5x.gX]) from rfl]
  rw [gossipRun_cons]
  rw [h01]
  rw [gossipRun_append, C5aux_fillers_full (0 + 1)]
  rw [gossipRun_singleton]
  rw [fwdCount_cons]
  have hcond1 : (C5x.gX.msg_id == C5x.xId
      && !(_handle_gossip C5x.cfg C5x.st0 (C5x.sampleC 0) C5x.gX (C5x.nowC 0)
            (C5x.freshC 0)).2.isEmpty) = true := by
    rw [h02]
    decide
  rw [hcond1, if_pos rfl]
  rw [fwdCount_append _ _ _ _ _ (by rw [C5x_fillers_length, List.length_replicate])]
  rw [fwdCount_nil_outs]
  rw [fwdCount_cons]
  have hcond2 : (C5x.gX.msg_id == C5x.xId
      && !(_handle_gossip C5x.cfg ⟨"n0", C5x.P2, C5x.nums 10000, C5x.pairs 10000⟩
            (C5x.sampleC (0 + 1 + (C5x.fillers 10000).length)) C5x.gX
            (C5x.nowC (0 + 1 + (C5x.fillers 10000).length))
            (C5x.freshC (0 + 1 + (C5x.fillers 10000).length))).2.isEmpty) = true := by
    rw [C5aux_step_gX_full 10000 (0 + 1 + (C5x.fillers 10000).length)]
    decide
  rw [hcond2, if_pos rfl]
  show 1 + (0 + (1 + fwdCount [] [] C5x.xId)) = 2
  rw [show fwdCount [] [] C5x.xId = 0 from rfl]

/-- Whatever `compute_pow` returns came from a nonce whose digest carries
the required prefix. -/
theorem compute_pow_from_spec (node_id : String) (k : Nat) :
    ∀ (fuel nonce : Nat) (t : Json), compute_pow_from node_id k nonce fuel = some t →
      ∃ n : Nat, t = pow_result k n (sha256hex (node_id ++ toString n)) ∧
        (sha256hex (node_id ++ toString n)).startsWith (powPrefix k) = true := by
  intro fuel
  induction fuel with
  | zero => intro nonce t h; cases h
  | succ fuel ih =>
    intro nonce t h
    unfold compute_pow_from at h
    by_cases hs : (sha256hex (node_id ++ toString nonce)).startsWith (powPrefix k) = true
    · rw [if_pos hs] at h
      exact ⟨nonce, (Option.some.inj h).symm, hs⟩
    · rw [if_neg hs] at h
      exact ih (nonce + 1) t h

/-- Part 1 of the PoW law: a token `compute_pow` finds for identity `id`
and difficulty `k` verifies against the same identity and difficulty. -/
theorem validate_pow_of_compute (node_id : String) (k fuel : Nat) (t : Json)
    (h : compute_pow node_id k fuel = some t) :
    validate_pow (.str node_id) t k = true := by
  obtain ⟨n, ht, hs⟩ := compute_pow_from_spec node_id k fuel 0 t h
  rw [ht]
  show (if (k : Int) < (k : Int) then false
        else if (Json.str (sha256hex (node_id ++ toString n))
                  != Json.str (sha256hex (node_id ++ toString n))) = true then false
        else (sha256hex (node_id ++ toString n)).startsWith (powPrefix k)) = true
  rw [if_neg (lt_irrefl (k : Int)), bne_self_eq_false]
  rw [if_neg Bool.false_ne_true]
  exact hs

/-- Part 3 of the PoW law: the same token never verifies at difficulty
`k + 1` — `validate_pow` rejects `difficulty_k < required_k` outright. -/
theorem validate_pow_higher_k (node_id : String) (k fuel : Nat) (t : Json)
    (h : compute_pow node_id k fuel = some t) :
    validate_pow (.str node_id) t (k + 1) = false := by
  obtain ⟨n, ht, _⟩ := compute_pow_from_spec node_id k fuel 0 t h
  rw [ht]
  show (if (k : Int) < ((k + 1 : Nat) : Int) then false
        else if (Json.str (sha256hex (node_id ++ toString n))
                  != Json.str (sha256hex (node_id ++ toString n))) = true then false
        else (sha256hex (node_id ++ toString n)).startsWith (powPrefix (k + 1))) = false
  rw [if_pos (by exact_mod_cast Nat.lt_succ_self k)]

end Gossip
